import Mathlib

/-! Tilemap (src/level/Tilemap.cpp)

A shallow embedding of the tile map of the `bleak` engine: the tile grid, the
per-tile-type metadata tables, the two text loaders, the sprite atlas builder,
the accessors and the 3x3 collision query.

Conventions of the embedding.

* C++ `int` values are integers; `/` and `%` on `int` are truncating
  (`Int.tdiv`, `Int.tmod`).  `FitsInt v` says that `v` is in the range of a
  32-bit `int`, and `wrapInt v` is the `int` with the low 32 bits of `v`.  The
  text loaders and the renderer reduce what they compute to 32 bits
  (`atoi`, the array length of `loadData`, the window and the pixel positions
  of `render`); in C++ itself a signed overflow has no defined behaviour, so
  the theorems about computed values state, as `FitsInt` hypotheses, that the
  values fit.  The accessors and the collision query compute in the integers,
  and their theorems carry the range where a value could leave it.
* Operations that can stop without a value return `Except Fault _`.
* Raw arrays (`new T[n]`) are lists; an access outside the allocation is the
  fault `outOfBounds`.  `std::vector::at` outside the vector is the fault
  `outOfRange` (the exception `std::out_of_range`).
* A text file is the list of its lines, each a list of characters, or `none`
  when it cannot be opened.
-/

namespace Bleak

/-- Ways an operation of the tile map stops without producing a value. -/
inductive Fault where
  /-- The stream is not open and `error(...)` is called. -/
  | fileNotOpen
  /-- The exception `std::out_of_range` thrown by `std::vector::at`. -/
  | outOfRange
  /-- The array length given to `new T[n]` is negative. -/
  | badArrayLength
  /-- A raw array is read or written outside its allocation. -/
  | outOfBounds
  /-- Integer division by zero. -/
  | divisionByZero
  deriving DecidableEq, Repr

deriving instance DecidableEq for Except

/-- The `Rectangle(x, y, w, h)` objects handed to the collision code. -/
structure Rectangle where
  x : Int
  y : Int
  w : Int
  h : Int
  deriving DecidableEq, Repr

/-- Modelled from the spec: the image collaborator (`Texture.hpp` is missing),
with `crop(x,y,w,h) -> Image`, `.width` and `.height`.  An image is
represented by its size and by the pixel origin, in the tileset image, of the
region it was cut from (the tileset image itself has origin `(0,0)`). -/
structure Texture where
  originX : Int
  originY : Int
  width : Int
  height : Int
  deriving DecidableEq, Repr

/-- Modelled from the spec: `crop(x,y,w,h) -> Image`, the `w x h` region of
the image whose origin is `(x,y)`. -/
def Texture.crop (tex : Texture) (x y w h : Int) : Texture :=
  ⟨tex.originX + x, tex.originY + y, w, h⟩

/-- Modelled from the spec: the constants `TILE_SOLID` / `TILE_PASSABLE` of
the missing `Tilemap.hpp` (token `"true"` is solid, anything else passable). -/
def TILE_SOLID : Bool := true

/-- Modelled from the spec: see `TILE_SOLID`. -/
def TILE_PASSABLE : Bool := false

/-- Modelled from the spec: the constants `TILE_FOREGROUND` /
`TILE_BACKGROUND` of the missing `Tilemap.hpp` (token `"true"` is foreground,
anything else background). -/
def TILE_FOREGROUND : Bool := true

/-- Modelled from the spec: see `TILE_FOREGROUND`. -/
def TILE_BACKGROUND : Bool := false

/-- The fields of `class Tilemap`. -/
structure Tilemap where
  width : Int
  height : Int
  tileSize : Int
  /-- Array `int* tileData` (`new int[width * height]`). -/
  tileData : List Int
  /-- Array `bool* solidData`. -/
  solidData : List Bool
  /-- Array `bool* foregroundData`. -/
  foregroundData : List Bool
  tilemapTexture : Texture
  /-- Array `Texture** tileTextures`. -/
  tileTextures : List Texture
  deriving DecidableEq, Repr

/-! ## Machine integers -/

/-- A value is in the range of a 32-bit `int`. -/
def FitsInt (v : Int) : Prop := -2147483648 ≤ v ∧ v ≤ 2147483647

instance (v : Int) : Decidable (FitsInt v) := by
  unfold FitsInt; infer_instance

/-- The 32-bit `int` with the same low 32 bits as `v` (two's complement): the
value an `int` holds after a conversion or an operation whose exact result is
`v`. -/
def wrapInt (v : Int) : Int := (v + 2147483648) % 4294967296 - 2147483648

/-- Read `a[i]` of a raw array. -/
def readAt {α : Type} (a : List α) (i : Int) : Except Fault α :=
  if 0 ≤ i then
    match a[i.toNat]? with
    | some v => pure v
    | none => throw Fault.outOfBounds
  else throw Fault.outOfBounds

/-- Write `a[i] = v` of a raw array. -/
def writeAt {α : Type} (a : List α) (i : Int) (v : α) : Except Fault (List α) :=
  if 0 ≤ i ∧ i.toNat < a.length then pure (a.set i.toNat v)
  else throw Fault.outOfBounds

/-- The call `v.at(i)` of a `std::vector`. -/
def vectorAt {α : Type} (v : List α) (i : Nat) : Except Fault α :=
  match v[i]? with
  | some a => pure a
  | none => throw Fault.outOfRange

/-! ## Accessors (lines 124-141) -/

/-- Line 141: `x >= 0 && y >= 0 && x < width && y < height`. -/
def tileInRange (t : Tilemap) (x y : Int) : Bool :=
  decide (x ≥ 0) && decide (y ≥ 0) && decide (x < t.width) && decide (y < t.height)

/-- Lines 124-127. -/
def setTile (t : Tilemap) (x y id : Int) : Except Fault Tilemap :=
  if tileInRange t x y && decide (id ≥ 0) then do
    let d ← writeAt t.tileData (x + y * t.width) id
    pure { t with tileData := d }
  else pure t

/-- Lines 129-133. -/
def getTileId (t : Tilemap) (x y : Int) : Except Fault Int :=
  if tileInRange t x y then readAt t.tileData (x + y * t.width)
  else pure 0

/-- Lines 135-136.  The products are taken in the integers; they are the `int`
products of line 136 when they are in the range of `int`, which the theorems
on the coordinates returned for arbitrary pixel positions assume
(`FitsInt`). -/
def getTileRectangle (t : Tilemap) (x y : Int) : Rectangle :=
  ⟨x * t.tileSize, y * t.tileSize, t.tileSize, t.tileSize⟩

/-- Line 137: the overload `isSolid(int id)`. -/
def isSolid (t : Tilemap) (id : Int) : Except Fault Bool :=
  readAt t.solidData id

/-- Line 138: the overload `isSolid(int x, int y)`. -/
def isSolidXY (t : Tilemap) (x y : Int) : Except Fault Bool := do
  let id ← getTileId t x y
  readAt t.solidData id

/-- Line 139: the overload `isInForeground(int id)`. -/
def isInForeground (t : Tilemap) (id : Int) : Except Fault Bool :=
  readAt t.foregroundData id

/-- Line 140: the overload `isInForeground(int x, int y)`. -/
def isInForegroundXY (t : Tilemap) (x y : Int) : Except Fault Bool := do
  let id ← getTileId t x y
  readAt t.foregroundData id

/-! ## Collision query (lines 106-122) -/

/-- Line 111, the statement `tryToAdd(a, b)`:
`if(isSolid(a, b)) rectangles.push_back(getTileRectangle(a, b));`. -/
def tryToAdd (t : Tilemap) (rectangles : List Rectangle) (a b : Int) :
    Except Fault (List Rectangle) := do
  let s ← isSolidXY t a b
  if s then pure (rectangles ++ [getTileRectangle t a b]) else pure rectangles

/-- Lines 108-109: the centre tile `(tx, ty)` of a pixel position. -/
def centreTile (t : Tilemap) (x y : Int) : Int × Int :=
  (Int.tdiv x t.tileSize, Int.tdiv y t.tileSize)

/-- Lines 106-122. -/
def getRectanglesSurrounding (t : Tilemap) (x y : Int) : Except Fault (List Rectangle) :=
  if t.tileSize = 0 then throw Fault.divisionByZero
  else do
    let tx := Int.tdiv x t.tileSize
    let ty := Int.tdiv y t.tileSize
    let rectangles : List Rectangle := []
    let rectangles ← tryToAdd t rectangles tx ty
    let rectangles ← tryToAdd t rectangles (tx - 1) (ty - 1)
    let rectangles ← tryToAdd t rectangles tx (ty - 1)
    let rectangles ← tryToAdd t rectangles (tx + 1) (ty - 1)
    let rectangles ← tryToAdd t rectangles (tx - 1) ty
    let rectangles ← tryToAdd t rectangles (tx + 1) ty
    let rectangles ← tryToAdd t rectangles (tx - 1) (ty + 1)
    let rectangles ← tryToAdd t rectangles tx (ty + 1)
    let rectangles ← tryToAdd t rectangles (tx + 1) (ty + 1)
    pure rectangles

/-! ## Sprite atlas (lines 25-38) -/

/-- Lines 31-33: the sprite cut for tile `id`. -/
def cropTile (t : Tilemap) (id : Int) : Texture :=
  let tilePosX := Int.tmod id t.tileSize
  let tilePosY := Int.tdiv id t.tileSize
  t.tilemapTexture.crop (tilePosX * t.tileSize) (tilePosY * t.tileSize) t.tileSize t.tileSize

/-- Line 28: `nTiles`. -/
def nTiles (t : Tilemap) : Int :=
  Int.tdiv t.tilemapTexture.width t.tileSize * Int.tdiv t.tilemapTexture.height t.tileSize

/-- Lines 25-38.  The loop runs `id = 0, 1, ..., nTiles - 1`; its first
iteration allocates `tileTextures` with `nTiles` cells and iteration `id`
stores the cropped sprite in cell `id`.  When `nTiles <= 0` the loop body never
runs and `tileTextures` is left as it was. -/
def init (t : Tilemap) : Except Fault Tilemap :=
  if t.tileSize = 0 then throw Fault.divisionByZero
  else if nTiles t ≤ 0 then pure t
  else pure { t with
    tileTextures := (List.range (nTiles t).toNat).map (fun (id : Nat) => cropTile t (id : Int)) }

/-! ## Text loaders (lines 45-83) -/

/-- The C library predicate `isspace` in the "C" locale. -/
def isspace (c : Char) : Bool :=
  c = ' ' || c = '\t' || c = '\n' || c = '\x0b' || c = '\x0c' || c = '\r'

/-- The value of a decimal digit character. -/
def digitValue (c : Char) : Int := (c.toNat : Int) - 48

/-- The digit loop of `atoi`: consume decimal digits, stop at the first
character that is not one. -/
def atoiDigits : List Char → Int → Int
  | [], acc => acc
  | c :: cs, acc => if c.isDigit then atoiDigits cs (acc * 10 + digitValue c) else acc

/-- The number written at the start of a string, as `strtol` reads it in base
10: skip leading white space, read an optional sign, then decimal digits; the
value is 0 when there is no digit. -/
def decimalValue (s : List Char) : Int :=
  match s.dropWhile isspace with
  | [] => 0
  | c :: r =>
    if c = '-' then - atoiDigits r 0
    else if c = '+' then atoiDigits r 0
    else atoiDigits (c :: r) 0

/-- The result of `strtol` for a number outside the range of `long` (64 bits):
the nearest end of the range. -/
def saturateLong (v : Int) : Int :=
  if v < -9223372036854775808 then -9223372036854775808
  else if v > 9223372036854775807 then 9223372036854775807
  else v

/-- The C library function `atoi`, as the C library computes it:
`(int) strtol(s, NULL, 10)`.  The number read is held in a `long` and converted
to the 32-bit `int` that the caller stores. -/
def atoi (s : List Char) : Int :=
  wrapInt (saturateLong (decimalValue s))

/-- Line 56: the loop `for(i = 3; i < lines.size(); i++) tileData[i - 3] = atoi(lines.at(i))`,
over the lines from index 3 on; `k` is `i - 3`. -/
def storeTiles : List (List Char) → Nat → List Int → Except Fault (List Int)
  | [], _, tileData => pure tileData
  | line :: rest, k, tileData => do
    let tileData ← writeAt tileData (k : Int) (atoi line)
    storeTiles rest (k + 1) tileData

/-- Lines 45-57.  `junk` is the indeterminate content of the array returned by
`new int[width * height]`. -/
def loadData (t : Tilemap) (file : Option (List (List Char))) (junk : Nat → Int) :
    Except Fault Tilemap :=
  match file with
  | none => throw Fault.fileNotOpen
  | some lines => do
    let _name ← vectorAt lines 0
    let width := atoi (← vectorAt lines 1)
    let height := atoi (← vectorAt lines 2)
    let length := wrapInt (width * height)
    if length < 0 then throw Fault.badArrayLength
    let tileData := (List.range length.toNat).map junk
    let tileData ← storeTiles (lines.drop 3) 0 tileData
    pure { t with width := width, height := height, tileData := tileData }

/-- Lines 68-75: the token loop
`while (stream.good()) { getline(stream, token, ','); tokens.push_back(token); }`
over the characters left in the stream; `token` is what the running `getline`
has read so far.  At a comma `getline` ends with the stream still good, the
token is pushed and the next `getline` starts; at the end of the stream
`getline` sets `eofbit`, the token (possibly empty) is pushed and the loop
ends. -/
def readTokens : List Char → List Char → List (List Char)
  | [], token => [token]
  | c :: cs, token => if c = ',' then token :: readTokens cs [] else readTokens cs (token ++ [c])

/-- Lines 66-78: the loop over the lines of the metadata file. -/
def readTileLines : List (List Char) → List Bool → List Bool →
    Except Fault (List Bool × List Bool)
  | [], solid, foreground => pure (solid, foreground)
  | line :: rest, solid, foreground => do
    let tokens := readTokens line []
    let solid := solid ++ [if (← vectorAt tokens 0) = "true".toList then TILE_SOLID else TILE_PASSABLE]
    let foreground := foreground ++
      [if (← vectorAt tokens 1) = "true".toList then TILE_FOREGROUND else TILE_BACKGROUND]
    readTileLines rest solid foreground

/-- Lines 60-83. -/
def loadTileData (t : Tilemap) (file : Option (List (List Char))) : Except Fault Tilemap :=
  match file with
  | none => throw Fault.fileNotOpen
  | some lines => do
    let (solid, foreground) ← readTileLines lines [] []
    pure { t with solidData := solid, foregroundData := foreground }

/-- Lines 9-14: the constructor, given the image that `new Texture(textureFile)`
loaded.  The arrays not yet allocated are empty. -/
def construct (tileSize : Int) (texture : Texture) (metadataFile : Option (List (List Char))) :
    Except Fault Tilemap := do
  let t : Tilemap := ⟨0, 0, tileSize, [], [], [], texture, []⟩
  let t ← loadTileData t metadataFile
  init t

/-! ## Renderer (lines 85-100) -/

/-- Modelled from the spec: the camera collaborator (`focusX()`, `focusY()`;
`Camera.hpp` is missing).  The fields hold the focus after the conversion
`(int)` of lines 91-94. -/
structure Camera where
  focusX : Int
  focusY : Int
  deriving DecidableEq, Repr

/-- One call `drawTexture(sprite, x, y, keyColor, camera)`. -/
structure DrawCall where
  texture : Texture
  x : Int
  y : Int
  keyColor : Int
  camera : Camera
  deriving DecidableEq, Repr

/-- Modelled from the spec: the graphics collaborator (`Graphics.hpp` is
missing), with the viewport dimensions `renderBuffer->width`,
`renderBuffer->height` and `drawTexture(sprite, x, y, keyColor, camera)`.
`drawn` is the sequence of draw calls received so far. -/
structure Graphics where
  renderBufferWidth : Int
  renderBufferHeight : Int
  drawn : List DrawCall
  deriving DecidableEq, Repr

/-- Modelled from the spec: `drawTexture(sprite, x, y, keyColor, camera)`; the
call is recorded after those already received. -/
def Graphics.drawTexture (graphics : Graphics) (texture : Texture) (x y keyColor : Int)
    (camera : Camera) : Graphics :=
  { graphics with drawn := graphics.drawn ++ [⟨texture, x, y, keyColor, camera⟩] }

/-- Modelled from the spec: `clamp(value, low, high)` of the missing
`JMath.hpp`, which limits `value` to `[low, high]` ("clamp to `[0, width]`"). -/
def clamp (value low high : Int) : Int :=
  if value < low then low else if value > high then high else value

/-- The values `lo, lo + 1, ..., hi` taken in turn by the variable of a loop
`for(int v = lo; v <= hi; v++)`. -/
def loopValues (lo hi : Int) : List Int :=
  (List.range (hi + 1 - lo).toNat).map (fun (k : Nat) => lo + (k : Int))

/-- Line 98, the body of the inner loop:
`if(isInForeground(x, y) == layer) graphics->drawTexture(tileTextures[getTileId(x, y)],
x * tileSize, y * tileSize, 0xFF00FF, camera);`. -/
def renderTile (t : Tilemap) (graphics : Graphics) (camera : Camera) (layer : Bool) (x y : Int) :
    Except Fault Graphics := do
  let foreground ← isInForegroundXY t x y
  if foreground = layer then do
    let id ← getTileId t x y
    let texture ← readAt t.tileTextures id
    pure (graphics.drawTexture texture (wrapInt (x * t.tileSize)) (wrapInt (y * t.tileSize))
      0xFF00FF camera)
  else pure graphics

/-- Lines 85-100.  The result is the graphics target after the draw calls of
this pass; no field of the tilemap is assigned.  Each quotient by `tileSize`,
each sum and each difference is an `int`, reduced to 32 bits by `wrapInt`
(halving an `int` cannot leave the range). -/
def render (t : Tilemap) (graphics : Graphics) (camera : Camera) (layer : Bool) :
    Except Fault Graphics :=
  if t.tileSize = 0 then throw Fault.divisionByZero
  else
    let padding : Int := 4
    let nRowTiles := wrapInt (Int.tdiv graphics.renderBufferWidth t.tileSize)
    let nColTiles := wrapInt (Int.tdiv graphics.renderBufferHeight t.tileSize)
    let x1 := clamp (wrapInt (wrapInt (wrapInt (Int.tdiv camera.focusX t.tileSize) -
      Int.tdiv nRowTiles 2) - padding)) 0 t.width
    let x2 := clamp (wrapInt (wrapInt (wrapInt (Int.tdiv camera.focusX t.tileSize) +
      Int.tdiv nRowTiles 2) + padding)) 0 t.width
    let y1 := clamp (wrapInt (wrapInt (wrapInt (Int.tdiv camera.focusY t.tileSize) -
      Int.tdiv nColTiles 2) - padding)) 0 t.height
    let y2 := clamp (wrapInt (wrapInt (wrapInt (Int.tdiv camera.focusY t.tileSize) +
      Int.tdiv nColTiles 2) + padding)) 0 t.height
    (loopValues x1 x2).foldlM
      (fun graphics x =>
        (loopValues y1 y2).foldlM (fun graphics y => renderTile t graphics camera layer x y)
          graphics)
      graphics

/-! ## Well-formedness -/

/-- The tile array has the `width * height` cells that `loadData` allocates. -/
def GridAllocated (t : Tilemap) : Prop :=
  t.tileData.length = (t.width * t.height).toNat

instance (t : Tilemap) : Decidable (GridAllocated t) := by
  unfold GridAllocated; infer_instance

/-- Every tile id the accessors can meet has a record in both metadata tables:
the ids stored in the grid, and id 0, which stands for the positions outside
the grid. -/
def MetadataCovers (t : Tilemap) : Prop :=
  ∀ id ∈ (0 : Int) :: t.tileData,
    0 ≤ id ∧ id.toNat < t.solidData.length ∧ id.toNat < t.foregroundData.length

instance (t : Tilemap) : Decidable (MetadataCovers t) := by
  unfold MetadataCovers; infer_instance

/-! ## Sample tilemaps -/

/-- A 1x1 grid holding tile id 7. -/
def grid1x1 : Tilemap := ⟨1, 1, 32, [7], [false], [false], ⟨0, 0, 32, 32⟩, []⟩

/-- A 1x1 grid holding tile id 0 whose tile type 0 is solid and foreground. -/
def solidZero1x1 : Tilemap := ⟨1, 1, 32, [0], [true], [true], ⟨0, 0, 32, 32⟩, []⟩

/-- A 1x1 grid holding tile id 0 with an empty metadata table. -/
def noMetadata1x1 : Tilemap := ⟨1, 1, 32, [0], [], [], ⟨0, 0, 32, 32⟩, []⟩

/-- A 3x3 grid of 32-pixel tiles, every cell of the solid tile type 1; tile
type 0 is passable. -/
def allSolid3x3 : Tilemap :=
  ⟨3, 3, 32, [1, 1, 1, 1, 1, 1, 1, 1, 1], [false, true], [false, false], ⟨0, 0, 64, 32⟩, []⟩

/-- A 3x1 strip of 32-pixel tiles: only the middle cell `(1,0)` is solid. -/
def strip3x1 : Tilemap :=
  ⟨3, 1, 32, [0, 1, 0], [false, true], [false, false], ⟨0, 0, 64, 32⟩, []⟩

/-! ## The collision query as the spec words it -/

/-- The nine tile positions of the collision query in the order of the spec:
the centre, then its eight neighbours. -/
def ninePositions (tx ty : Int) : List (Int × Int) :=
  [(tx, ty), (tx - 1, ty - 1), (tx, ty - 1), (tx + 1, ty - 1), (tx - 1, ty), (tx + 1, ty),
    (tx - 1, ty + 1), (tx, ty + 1), (tx + 1, ty + 1)]

/-- The rectangles of the spec: keep the positions where `isSolid` is true and
map each to the `tileSize x tileSize` rectangle at the tile's pixel origin. -/
def solidRectangles (t : Tilemap) (ps : List (Int × Int)) : List Rectangle :=
  (ps.filter (fun p => isSolidXY t p.1 p.2 = Except.ok true)).map
    (fun p => ⟨p.1 * t.tileSize, p.2 * t.tileSize, t.tileSize, t.tileSize⟩)

/-- A tilemap just before `init`, with a 64x64 tileset image and 32-pixel
tiles. -/
def atlas64 : Tilemap := ⟨0, 0, 32, [], [], [], ⟨0, 0, 64, 64⟩, []⟩

/-! ## The metadata file as the spec words it -/

/-- The comma-separated tokens of a line. -/
def commaTokens (line : List Char) : List (List Char) := line.splitOn ','

/-- Token `k` of a line is the string `"true"`. -/
def tokenIsTrue (line : List Char) (k : Nat) : Bool :=
  decide ((commaTokens line)[k]? = some "true".toList)

/-- A metadata file of the spec's example: two tile types. -/
def metadataExample : List (List Char) := ["true,false".toList, "false,true".toList]

/-! ## The layout file as the spec words it -/

/-- The decimal numeral of an integer, as written on a line of a layout
file. -/
def decimal : Int → List Char
  | Int.ofNat n => Nat.toDigits 10 n
  | Int.negSucc n => '-' :: Nat.toDigits 10 (n + 1)

/-- The layout file of the spec's example: a name, width 3, height 2 and the
ids 0 to 5. -/
def layoutExample : List (List Char) :=
  ["level".toList, "3".toList, "2".toList, "0".toList, "1".toList, "2".toList, "3".toList,
    "4".toList, "5".toList]

/-- Tile id `id` has a record in both metadata tables. -/
def HasRecord (t : Tilemap) (id : Int) : Prop :=
  0 ≤ id ∧ id.toNat < t.solidData.length ∧ id.toNat < t.foregroundData.length

instance (t : Tilemap) (id : Int) : Decidable (HasRecord t id) := by
  unfold HasRecord; infer_instance

/-- Every tile id the renderer can meet has a sprite in the atlas: the ids
stored in the grid, and id 0, which stands for the positions outside the
grid. -/
def AtlasCovers (t : Tilemap) : Prop :=
  ∀ id ∈ (0 : Int) :: t.tileData, 0 ≤ id ∧ id.toNat < t.tileTextures.length

instance (t : Tilemap) : Decidable (AtlasCovers t) := by
  unfold AtlasCovers; infer_instance

/-- A 2x2 grid of 32-pixel tiles with its atlas: tile type 0 is passable
background, tile type 1 is solid foreground; the cells `(1,0)` and `(0,1)` hold
type 1. -/
def layered2x2 : Tilemap :=
  ⟨2, 2, 32, [0, 1, 1, 0], [false, true], [false, true], ⟨0, 0, 64, 32⟩,
    [⟨0, 0, 32, 32⟩, ⟨32, 0, 32, 32⟩]⟩

/-- A 64x64 viewport that has received no draw call. -/
def screen64 : Graphics := ⟨64, 64, []⟩

/-- A camera focused on pixel `(0,0)`. -/
def cameraOrigin : Camera := ⟨0, 0⟩

/-- A layout file with width 1, height 1 and two data lines. -/
def layoutTooLong : List (List Char) :=
  ["level".toList, "1".toList, "1".toList, "0".toList, "0".toList]

/-- A metadata file whose second line has no comma. -/
def metadataMalformed : List (List Char) := ["true,false".toList, "true".toList]

/-! ## The draw calls of a render pass -/

/-- The cells of the window `x1 <= x <= x2`, `y1 <= y <= y2` in the order of
the loops of lines 95-99: ascending `x` (outer), then ascending `y` (inner). -/
def windowCells (x1 x2 y1 y2 : Int) : List (Int × Int) :=
  (loopValues x1 x2).flatMap (fun x => (loopValues y1 y2).map (fun y => (x, y)))

/-- The window `(x1, x2, y1, y2)` that lines 89-94 compute. -/
def passWindow (t : Tilemap) (graphics : Graphics) (camera : Camera) : Int × Int × Int × Int :=
  let padding : Int := 4
  let nRowTiles := wrapInt (Int.tdiv graphics.renderBufferWidth t.tileSize)
  let nColTiles := wrapInt (Int.tdiv graphics.renderBufferHeight t.tileSize)
  (clamp (wrapInt (wrapInt (wrapInt (Int.tdiv camera.focusX t.tileSize) -
      Int.tdiv nRowTiles 2) - padding)) 0 t.width,
    clamp (wrapInt (wrapInt (wrapInt (Int.tdiv camera.focusX t.tileSize) +
      Int.tdiv nRowTiles 2) + padding)) 0 t.width,
    clamp (wrapInt (wrapInt (wrapInt (Int.tdiv camera.focusY t.tileSize) -
      Int.tdiv nColTiles 2) - padding)) 0 t.height,
    clamp (wrapInt (wrapInt (wrapInt (Int.tdiv camera.focusY t.tileSize) +
      Int.tdiv nColTiles 2) + padding)) 0 t.height)

/-- The draw calls that a pass adds to the graphics target: what `render`
leaves in a target that had received nothing. -/
def passCalls (t : Tilemap) (graphics : Graphics) (camera : Camera) (layer : Bool) :
    Except Fault (List DrawCall) :=
  (render t { graphics with drawn := [] } camera layer).map Graphics.drawn

/-- The draw calls of line 98 for one cell: one call when the cell is of the
layer of the pass, none otherwise. -/
def tileCalls (t : Tilemap) (camera : Camera) (layer : Bool) (p : Int × Int) :
    Except Fault (List DrawCall) := do
  let foreground ← isInForegroundXY t p.1 p.2
  if foreground = layer then do
    let id ← getTileId t p.1 p.2
    let texture ← readAt t.tileTextures id
    pure [⟨texture, wrapInt (p.1 * t.tileSize), wrapInt (p.2 * t.tileSize), 0xFF00FF, camera⟩]
  else pure []

/-- The draw calls of line 98 for a sequence of cells, in order. -/
def cellCalls (t : Tilemap) (camera : Camera) (layer : Bool) :
    List (Int × Int) → Except Fault (List DrawCall)
  | [] => pure []
  | p :: ps => do
    let calls ← tileCalls t camera layer p
    let rest ← cellCalls t camera layer ps
    pure (calls ++ rest)

/-- The draw call `c` is the one of the spec for cell `p`: the atlas sprite of
`getTileId(p)`, at pixel position `(x*tileSize, y*tileSize)`, with key colour
`0xFF00FF` and the camera of the pass. -/
def DrawsCell (t : Tilemap) (camera : Camera) (p : Int × Int) (c : DrawCall) : Prop :=
  c.x = p.1 * t.tileSize ∧ c.y = p.2 * t.tileSize ∧ c.keyColor = 0xFF00FF ∧ c.camera = camera ∧
    ∃ id, getTileId t p.1 p.2 = Except.ok id ∧ readAt t.tileTextures id = Except.ok c.texture

/-- A layout file with width 1, height 1 and the single tile id 1. -/
def layoutOneForeground : List (List Char) :=
  ["level".toList, "1".toList, "1".toList, "1".toList]

/-- The tilemap that the constructor and `loadData` build from 32-pixel tiles,
a 32x32 tileset image (one sprite), the metadata file `metadataExample` (two
tile types) and the layout `layoutOneForeground`: a 1x1 grid holding the
foreground tile type 1, with records for types 0 and 1 and a sprite for type 0
only. -/
def missingSprite1x1 : Tilemap :=
  ⟨1, 1, 32, [1], [true, false], [false, true], ⟨0, 0, 32, 32⟩, [⟨0, 0, 32, 32⟩]⟩

/-- The tilemap that the constructor builds from 32-pixel tiles, a 32x32
tileset image and an empty metadata file, before any layout is loaded: no
grid cell, no metadata record, one sprite. -/
def noLayoutNoMetadata : Tilemap :=
  ⟨0, 0, 32, [], [], [], ⟨0, 0, 32, 32⟩, [⟨0, 0, 32, 32⟩]⟩

/-! # Theorems -/

/-! ## Basic facts about raw arrays and the accessors -/

theorem readAt_natCast {α : Type} (a : List α) (n : Nat) (v : α) (h : a[n]? = some v) :
    readAt a (n : Int) = Except.ok v := by
  simp [readAt, h, pure, Except.pure]

theorem readAt_of_getElem? {α : Type} (a : List α) (i : Int) (v : α) (hi : 0 ≤ i)
    (h : a[i.toNat]? = some v) : readAt a i = Except.ok v := by
  simp [readAt, hi, h, pure, Except.pure]

theorem tileInRange_iff (t : Tilemap) (x y : Int) :
    tileInRange t x y = true ↔ 0 ≤ x ∧ 0 ≤ y ∧ x < t.width ∧ y < t.height := by
  simp [tileInRange, and_assoc]

theorem cell_index_bounds (w h x y : Int) (hx : 0 ≤ x) (hy : 0 ≤ y) (hxw : x < w) (hyh : y < h) :
    0 ≤ x + y * w ∧ x + y * w < w * h := by
  have hw : 0 < w := lt_of_le_of_lt hx hxw
  constructor
  · positivity
  · have h1 : y + 1 ≤ h := hyh
    have h2 : (y + 1) * w ≤ h * w := mul_le_mul_of_nonneg_right h1 hw.le
    nlinarith

theorem cell_index_lt_length (t : Tilemap) (x y : Int) (hg : GridAllocated t)
    (hr : tileInRange t x y = true) :
    0 ≤ x + y * t.width ∧ (x + y * t.width).toNat < t.tileData.length := by
  obtain ⟨hx, hy, hxw, hyh⟩ := (tileInRange_iff t x y).1 hr
  obtain ⟨h0, h1⟩ := cell_index_bounds t.width t.height x y hx hy hxw hyh
  refine ⟨h0, ?_⟩
  rw [hg]
  omega

theorem getTileId_out (t : Tilemap) (x y : Int) (hr : tileInRange t x y = false) :
    getTileId t x y = Except.ok 0 := by
  simp [getTileId, hr, pure, Except.pure]

/-! ## C1: write then read -/

/-- C1, as stated, fails: on a 1x1 grid holding id 7, `setTile(0,0,-1)` is
accepted as a call but leaves the cell alone, and `getTileId(0,0)` afterwards
returns 7, not -1. -/
theorem setTile_getTileId_negative_id :
    GridAllocated grid1x1 ∧ tileInRange grid1x1 0 0 = true ∧
      (setTile grid1x1 0 0 (-1) >>= fun t => getTileId t 0 0) = Except.ok 7 ∧
      (7 : Int) ≠ -1 := by
  decide

/-- C1 (amended): on every tilemap whose tile array is allocated, for every
in-range coordinate `(x,y)` and every tile id `id >= 0`, `setTile(x,y,id)`
succeeds and `getTileId(x,y)` afterwards returns `id`. -/
theorem setTile_getTileId (t : Tilemap) (x y id : Int) (hg : GridAllocated t)
    (hr : tileInRange t x y = true) (hid : 0 ≤ id) :
    ∃ t1, setTile t x y id = Except.ok t1 ∧ getTileId t1 x y = Except.ok id := by
  obtain ⟨h0, h1⟩ := cell_index_lt_length t x y hg hr
  refine ⟨{ t with tileData := t.tileData.set (x + y * t.width).toNat id }, ?_, ?_⟩
  · simp [setTile, writeAt, hr, hid, h0, h1, bind, Except.bind, pure, Except.pure]
  · have hr1 : tileInRange { t with tileData := t.tileData.set (x + y * t.width).toNat id } x y
        = true := hr
    simp only [getTileId, hr1, if_true]
    apply readAt_of_getElem? _ _ _ h0
    simp [h1]

theorem setTile_getTileId_witness :
    ∃ t1, setTile grid1x1 0 0 3 = Except.ok t1 ∧ getTileId t1 0 0 = Except.ok 3 :=
  setTile_getTileId grid1x1 0 0 3 (by decide) (by decide) (by decide)

/-! ## C4: out-of-range reads of the grid -/

/-- C4: for every tilemap and every coordinate outside
`[0,width) x [0,height)`, `getTileId(x,y)` returns 0, and it does so whatever
the tile array holds (even an array with no cell at all, where any read would
fault): the grid is not read. -/
theorem getTileId_out_of_range (t : Tilemap) (x y : Int) (hr : tileInRange t x y = false) :
    getTileId t x y = Except.ok 0 ∧
      ∀ d : List Int, getTileId { t with tileData := d } x y = Except.ok 0 := by
  refine ⟨getTileId_out t x y hr, fun d => ?_⟩
  exact getTileId_out _ x y hr

theorem getTileId_out_of_range_witness :
    getTileId grid1x1 (-1) 0 = Except.ok 0 ∧
      ∀ d : List Int, getTileId { grid1x1 with tileData := d } (-1) 0 = Except.ok 0 :=
  getTileId_out_of_range grid1x1 (-1) 0 (by decide)

/-! ## C5: out-of-range coordinates and the metadata tables -/

theorem isSolidXY_out (t : Tilemap) (x y : Int) (hr : tileInRange t x y = false) :
    isSolidXY t x y = isSolid t 0 := by
  simp [isSolidXY, isSolid, getTileId_out t x y hr, bind, Except.bind]

theorem isInForegroundXY_out (t : Tilemap) (x y : Int) (hr : tileInRange t x y = false) :
    isInForegroundXY t x y = isInForeground t 0 := by
  simp [isInForegroundXY, isInForeground, getTileId_out t x y hr, bind, Except.bind]

/-- C5, as stated, fails: outside the grid the coordinate overloads answer
for tile type 0.  With tile type 0 solid and foreground they return true at
`(-1,0)`; with an empty metadata table they fault. -/
theorem isSolidXY_out_of_range_not_false :
    tileInRange solidZero1x1 (-1) 0 = false ∧
      isSolidXY solidZero1x1 (-1) 0 = Except.ok true ∧
      isInForegroundXY solidZero1x1 (-1) 0 = Except.ok true ∧
      tileInRange noMetadata1x1 (-1) 0 = false ∧
      isSolidXY noMetadata1x1 (-1) 0 = Except.error Fault.outOfBounds ∧
      isInForegroundXY noMetadata1x1 (-1) 0 = Except.error Fault.outOfBounds := by
  decide

/-- C5 (amended): for every tilemap whose metadata tables have a record for
tile type 0, with solid flag `s` and foreground flag `f`, and every coordinate
outside `[0,width) x [0,height)`, `isSolid(x,y)` returns `s` and
`isInForeground(x,y)` returns `f`, without fault; so both return false exactly
when tile type 0 is passable and background. -/
theorem isSolidXY_out_of_range (t : Tilemap) (x y : Int) (s f : Bool)
    (hs : isSolid t 0 = Except.ok s) (hf : isInForeground t 0 = Except.ok f)
    (hr : tileInRange t x y = false) :
    isSolidXY t x y = Except.ok s ∧ isInForegroundXY t x y = Except.ok f := by
  rw [isSolidXY_out t x y hr, isInForegroundXY_out t x y hr]
  exact ⟨hs, hf⟩

theorem isSolidXY_out_of_range_witness :
    isSolidXY grid1x1 5 5 = Except.ok false ∧ isInForegroundXY grid1x1 5 5 = Except.ok false :=
  isSolidXY_out_of_range grid1x1 5 5 false false (by decide) (by decide) (by decide)

/-! ## C6-C8: the collision query -/

theorem getTileId_total (t : Tilemap) (x y : Int) (hg : GridAllocated t) :
    ∃ id, getTileId t x y = Except.ok id ∧ id ∈ (0 : Int) :: t.tileData := by
  cases hr : tileInRange t x y with
  | false => exact ⟨0, getTileId_out t x y hr, List.mem_cons_self _ _⟩
  | true =>
    obtain ⟨h0, h1⟩ := cell_index_lt_length t x y hg hr
    refine ⟨t.tileData[(x + y * t.width).toNat], ?_, ?_⟩
    · simp only [getTileId, hr, if_true]
      exact readAt_of_getElem? _ _ _ h0 (List.getElem?_eq_getElem h1)
    · exact List.mem_cons_of_mem _ (List.getElem_mem h1)

/-- On a tilemap whose tile array is allocated and whose tile ids all have
metadata records, the coordinate overloads return a value at every position. -/
theorem isSolidXY_total (t : Tilemap) (x y : Int) (hg : GridAllocated t)
    (hm : MetadataCovers t) :
    (∃ s, isSolidXY t x y = Except.ok s) ∧ ∃ f, isInForegroundXY t x y = Except.ok f := by
  obtain ⟨id, hid, hmem⟩ := getTileId_total t x y hg
  obtain ⟨h0, h1, h2⟩ := hm id hmem
  constructor
  · refine ⟨t.solidData[id.toNat], ?_⟩
    simp only [isSolidXY, hid, bind, Except.bind]
    exact readAt_of_getElem? _ _ _ h0 (List.getElem?_eq_getElem h1)
  · refine ⟨t.foregroundData[id.toNat], ?_⟩
    simp only [isInForegroundXY, hid, bind, Except.bind]
    exact readAt_of_getElem? _ _ _ h0 (List.getElem?_eq_getElem h2)

theorem getRectanglesSurrounding_foldlM (t : Tilemap) (x y : Int) (hts : t.tileSize ≠ 0) :
    getRectanglesSurrounding t x y =
      (ninePositions (Int.tdiv x t.tileSize) (Int.tdiv y t.tileSize)).foldlM
        (fun rs p => tryToAdd t rs p.1 p.2) [] := by
  simp [getRectanglesSurrounding, hts, ninePositions, List.foldlM]

theorem tryToAdd_ok (t : Tilemap) (rs : List Rectangle) (a b : Int) (s : Bool)
    (h : isSolidXY t a b = Except.ok s) :
    tryToAdd t rs a b = Except.ok (rs ++ solidRectangles t [(a, b)]) := by
  cases s <;> simp [tryToAdd, solidRectangles, getTileRectangle, h, bind, Except.bind, pure,
    Except.pure]

theorem solidRectangles_cons (t : Tilemap) (p : Int × Int) (ps : List (Int × Int)) :
    solidRectangles t (p :: ps) = solidRectangles t [p] ++ solidRectangles t ps := by
  simp only [solidRectangles, List.filter_cons, List.filter_nil]
  split <;> simp

theorem foldlM_tryToAdd_ok (t : Tilemap) (ps : List (Int × Int)) (rs : List Rectangle)
    (hok : ∀ p ∈ ps, ∃ s, isSolidXY t p.1 p.2 = Except.ok s) :
    ps.foldlM (fun rs p => tryToAdd t rs p.1 p.2) rs = Except.ok (rs ++ solidRectangles t ps) := by
  induction ps generalizing rs with
  | nil => simp [solidRectangles, pure, Except.pure]
  | cons p ps ih =>
    obtain ⟨s, hs⟩ := hok p (List.mem_cons_self p ps)
    have hrest : ∀ q ∈ ps, ∃ s, isSolidXY t q.1 q.2 = Except.ok s :=
      fun q hq => hok q (List.mem_cons_of_mem p hq)
    rw [List.foldlM_cons, tryToAdd_ok t rs p.1 p.2 s hs]
    show ps.foldlM (fun rs p => tryToAdd t rs p.1 p.2) (rs ++ solidRectangles t [(p.1, p.2)]) = _
    rw [ih _ hrest, solidRectangles_cons t p ps, List.append_assoc]

theorem foldlM_tryToAdd_mem (t : Tilemap) (ps : List (Int × Int)) (rs out : List Rectangle)
    (h : ps.foldlM (fun rs p => tryToAdd t rs p.1 p.2) rs = Except.ok out) :
    ∀ r ∈ out, r ∈ rs ∨
      ∃ p ∈ ps, isSolidXY t p.1 p.2 = Except.ok true ∧ r = getTileRectangle t p.1 p.2 := by
  induction ps generalizing rs with
  | nil =>
    intro r hr
    simp only [List.foldlM_nil, pure, Except.pure, Except.ok.injEq] at h
    subst h
    exact Or.inl hr
  | cons p ps ih =>
    intro r hr
    rw [List.foldlM_cons] at h
    cases hs : isSolidXY t p.1 p.2 with
    | error e => simp [tryToAdd, hs, bind, Except.bind] at h
    | ok s =>
      cases s with
      | false =>
        have h1 : ps.foldlM (fun rs p => tryToAdd t rs p.1 p.2) rs = Except.ok out := by
          simpa [tryToAdd, hs, bind, Except.bind, pure, Except.pure] using h
        rcases ih rs h1 r hr with h2 | ⟨q, hq, hq1, hq2⟩
        · exact Or.inl h2
        · exact Or.inr ⟨q, List.mem_cons_of_mem p hq, hq1, hq2⟩
      | true =>
        have h1 : ps.foldlM (fun rs p => tryToAdd t rs p.1 p.2)
            (rs ++ [getTileRectangle t p.1 p.2]) = Except.ok out := by
          simpa [tryToAdd, hs, bind, Except.bind, pure, Except.pure] using h
        rcases ih _ h1 r hr with h2 | ⟨q, hq, hq1, hq2⟩
        · rcases List.mem_append.1 h2 with h3 | h3
          · exact Or.inl h3
          · refine Or.inr ⟨p, List.mem_cons_self p ps, hs, ?_⟩
            simpa using h3
        · exact Or.inr ⟨q, List.mem_cons_of_mem p hq, hq1, hq2⟩

theorem getRectanglesSurrounding_eq (t : Tilemap) (x y : Int) (hts : t.tileSize ≠ 0)
    (hok : ∀ p ∈ ninePositions (Int.tdiv x t.tileSize) (Int.tdiv y t.tileSize),
      ∃ s, isSolidXY t p.1 p.2 = Except.ok s) :
    getRectanglesSurrounding t x y = Except.ok
      (solidRectangles t (ninePositions (Int.tdiv x t.tileSize) (Int.tdiv y t.tileSize))) := by
  rw [getRectanglesSurrounding_foldlM t x y hts, foldlM_tryToAdd_ok t _ [] hok]
  simp

/-- On such a tilemap with a nonzero tile size the collision query returns a
list at every pixel position. -/
theorem getRectanglesSurrounding_total (t : Tilemap) (x y : Int) (hts : t.tileSize ≠ 0)
    (hg : GridAllocated t) (hm : MetadataCovers t) :
    getRectanglesSurrounding t x y = Except.ok
      (solidRectangles t (ninePositions (Int.tdiv x t.tileSize) (Int.tdiv y t.tileSize))) :=
  getRectanglesSurrounding_eq t x y hts (fun p _ => (isSolidXY_total t p.1 p.2 hg hm).1)

/-- C6: for every tilemap with a nonzero tile size and every pixel position
`(x,y)` at which none of the nine `isSolid` calls faults and every `int` the
query computes is in the range of `int` (the tile size, the nine tile
coordinates and their products with the tile size),
`getRectanglesSurrounding(x,y)` returns exactly the list obtained from the nine
tile positions `(tx,ty)`, `(tx-1,ty-1)`, `(tx,ty-1)`, `(tx+1,ty-1)`, `(tx-1,ty)`,
`(tx+1,ty)`, `(tx-1,ty+1)`, `(tx,ty+1)`, `(tx+1,ty+1)`, in that order, with
`tx = x / tileSize` and `ty = y / tileSize`, by keeping those where `isSolid` is
true and mapping each to the rectangle with origin `(a*tileSize, b*tileSize)`
and size `tileSize x tileSize`; every coordinate of the rectangles returned is
in the range of `int`. -/
theorem getRectanglesSurrounding_spec (t : Tilemap) (x y : Int) (hts : t.tileSize ≠ 0)
    (hsize : FitsInt t.tileSize)
    (hfit : ∀ p ∈ [(Int.tdiv x t.tileSize, Int.tdiv y t.tileSize),
        (Int.tdiv x t.tileSize - 1, Int.tdiv y t.tileSize - 1),
        (Int.tdiv x t.tileSize, Int.tdiv y t.tileSize - 1),
        (Int.tdiv x t.tileSize + 1, Int.tdiv y t.tileSize - 1),
        (Int.tdiv x t.tileSize - 1, Int.tdiv y t.tileSize),
        (Int.tdiv x t.tileSize + 1, Int.tdiv y t.tileSize),
        (Int.tdiv x t.tileSize - 1, Int.tdiv y t.tileSize + 1),
        (Int.tdiv x t.tileSize, Int.tdiv y t.tileSize + 1),
        (Int.tdiv x t.tileSize + 1, Int.tdiv y t.tileSize + 1)],
      FitsInt p.1 ∧ FitsInt p.2 ∧ FitsInt (p.1 * t.tileSize) ∧ FitsInt (p.2 * t.tileSize))
    (hok : ∀ p ∈ [(Int.tdiv x t.tileSize, Int.tdiv y t.tileSize),
        (Int.tdiv x t.tileSize - 1, Int.tdiv y t.tileSize - 1),
        (Int.tdiv x t.tileSize, Int.tdiv y t.tileSize - 1),
        (Int.tdiv x t.tileSize + 1, Int.tdiv y t.tileSize - 1),
        (Int.tdiv x t.tileSize - 1, Int.tdiv y t.tileSize),
        (Int.tdiv x t.tileSize + 1, Int.tdiv y t.tileSize),
        (Int.tdiv x t.tileSize - 1, Int.tdiv y t.tileSize + 1),
        (Int.tdiv x t.tileSize, Int.tdiv y t.tileSize + 1),
        (Int.tdiv x t.tileSize + 1, Int.tdiv y t.tileSize + 1)],
      ∃ s, isSolidXY t p.1 p.2 = Except.ok s) :
    ∃ rs, getRectanglesSurrounding t x y = Except.ok rs ∧
      rs = (([(Int.tdiv x t.tileSize, Int.tdiv y t.tileSize),
        (Int.tdiv x t.tileSize - 1, Int.tdiv y t.tileSize - 1),
        (Int.tdiv x t.tileSize, Int.tdiv y t.tileSize - 1),
        (Int.tdiv x t.tileSize + 1, Int.tdiv y t.tileSize - 1),
        (Int.tdiv x t.tileSize - 1, Int.tdiv y t.tileSize),
        (Int.tdiv x t.tileSize + 1, Int.tdiv y t.tileSize),
        (Int.tdiv x t.tileSize - 1, Int.tdiv y t.tileSize + 1),
        (Int.tdiv x t.tileSize, Int.tdiv y t.tileSize + 1),
        (Int.tdiv x t.tileSize + 1, Int.tdiv y t.tileSize + 1)].filter
          (fun p => isSolidXY t p.1 p.2 = Except.ok true)).map
        (fun p => (⟨p.1 * t.tileSize, p.2 * t.tileSize, t.tileSize, t.tileSize⟩ : Rectangle))) ∧
      ∀ r ∈ rs, FitsInt r.x ∧ FitsInt r.y ∧ FitsInt r.w ∧ FitsInt r.h := by
  refine ⟨_, getRectanglesSurrounding_eq t x y hts hok, rfl, ?_⟩
  intro r hr
  obtain ⟨p, hp, rfl⟩ := List.mem_map.1 hr
  obtain ⟨_, _, h3, h4⟩ := hfit p (List.mem_filter.1 hp).1
  exact ⟨h3, h4, hsize, hsize⟩

theorem getRectanglesSurrounding_spec_witness :
    getRectanglesSurrounding strip3x1 40 5 = Except.ok [⟨32, 0, 32, 32⟩] := by
  obtain ⟨rs, h1, h2, _⟩ :=
    getRectanglesSurrounding_spec strip3x1 40 5 (by decide) (by decide) (by decide) (by decide)
  rw [h1, h2]
  decide

theorem tdiv_eq_of_containing (ts x c : Int) (hts : 0 < ts) (hc : 0 ≤ c) (h1 : c * ts ≤ x)
    (h2 : x < (c + 1) * ts) : Int.tdiv x ts = c := by
  have hx : 0 ≤ x := le_trans (mul_nonneg hc hts.le) h1
  rw [Int.tdiv_eq_ediv hx hts.le]
  apply le_antisymm
  · have : x / ts < c + 1 := Int.ediv_lt_of_lt_mul hts h2
    omega
  · exact Int.le_ediv_of_mul_le hts h1

theorem ninePositions_nodup (cx cy : Int) : (ninePositions cx cy).Nodup := by
  simp only [ninePositions, List.nodup_cons, List.mem_cons, List.mem_singleton, Prod.mk.injEq,
    List.not_mem_nil, List.nodup_nil, not_false_eq_true, and_true, not_or, not_and]
  omega

theorem getTileRectangle_injective (t : Tilemap) (hts : t.tileSize ≠ 0) :
    Function.Injective (fun p : Int × Int => getTileRectangle t p.1 p.2) := by
  rintro ⟨a, b⟩ ⟨c, d⟩ h
  simp only [getTileRectangle, Rectangle.mk.injEq, and_true] at h
  obtain ⟨h1, h2⟩ := h
  have ha : a = c := mul_right_cancel₀ hts h1
  have hb : b = d := mul_right_cancel₀ hts h2
  rw [ha, hb]

/-- C8, as stated, fails: on a 1x1 grid whose tile type 0 is solid, the query
at pixel `(0,0)` returns a rectangle at origin `(-32,-32)`, the position
`(-1,-1)`, which is outside the grid; no tile inside the grid has that
origin. -/
theorem getRectanglesSurrounding_out_of_grid :
    tileInRange solidZero1x1 (-1) (-1) = false ∧
      (∃ rs, getRectanglesSurrounding solidZero1x1 0 0 = Except.ok rs ∧
        (⟨-32, -32, 32, 32⟩ : Rectangle) ∈ rs) ∧
      ¬ ∃ a b : Int, tileInRange solidZero1x1 a b = true ∧
        getTileRectangle solidZero1x1 a b = ⟨-32, -32, 32, 32⟩ := by
  refine ⟨by decide, ⟨_, rfl, by decide⟩, ?_⟩
  rintro ⟨a, b, hr, hrect⟩
  rw [tileInRange_iff] at hr
  simp only [getTileRectangle, solidZero1x1, Rectangle.mk.injEq] at hrect hr
  omega

/-- C8 (amended): for every tilemap whose tile type 0 is recorded as passable,
every pixel position and every metadata table otherwise, out-of-range
positions are treated as non-solid (`isSolid` returns false there), and every
rectangle returned by `getRectanglesSurrounding(x,y)` sits at the origin of a
tile inside the grid. -/
theorem getRectanglesSurrounding_in_grid (t : Tilemap) (x y : Int)
    (h0 : isSolid t 0 = Except.ok false) :
    (∀ a b : Int, tileInRange t a b = false → isSolidXY t a b = Except.ok false) ∧
      ∀ rs, getRectanglesSurrounding t x y = Except.ok rs →
        ∀ r ∈ rs, ∃ a b : Int, tileInRange t a b = true ∧ r = getTileRectangle t a b := by
  have hout : ∀ a b : Int, tileInRange t a b = false → isSolidXY t a b = Except.ok false :=
    fun a b hr => by rw [isSolidXY_out t a b hr, h0]
  refine ⟨hout, fun rs hrs r hr => ?_⟩
  have hts : t.tileSize ≠ 0 := by
    intro hz
    simp [getRectanglesSurrounding, hz, throw, throwThe, MonadExceptOf.throw] at hrs
  rw [getRectanglesSurrounding_foldlM t x y hts] at hrs
  rcases foldlM_tryToAdd_mem t _ [] rs hrs r hr with h | ⟨p, _, hp, hrp⟩
  · simp at h
  · refine ⟨p.1, p.2, ?_, hrp⟩
    by_contra hn
    have hf : tileInRange t p.1 p.2 = false := by simpa using hn
    rw [hout p.1 p.2 hf] at hp
    simp at hp

theorem getRectanglesSurrounding_in_grid_witness :
    (∀ a b : Int, tileInRange strip3x1 a b = false → isSolidXY strip3x1 a b = Except.ok false) ∧
      ∀ rs, getRectanglesSurrounding strip3x1 0 0 = Except.ok rs →
        ∀ r ∈ rs, ∃ a b : Int, tileInRange strip3x1 a b = true ∧
          r = getTileRectangle strip3x1 a b :=
  getRectanglesSurrounding_in_grid strip3x1 0 0 (by decide)

/-! ## C9: the centre tile -/

theorem centreTile_contains_of_nonneg (t : Tilemap) (x y : Int) (hts : 0 < t.tileSize)
    (hx : 0 ≤ x) (hy : 0 ≤ y) :
    ((centreTile t x y).1 * t.tileSize ≤ x ∧ x < ((centreTile t x y).1 + 1) * t.tileSize) ∧
      ((centreTile t x y).2 * t.tileSize ≤ y ∧ y < ((centreTile t x y).2 + 1) * t.tileSize) := by
  simp only [centreTile, Int.tdiv_eq_ediv hx hts.le, Int.tdiv_eq_ediv hy hts.le]
  have h1 := Int.ediv_add_emod x t.tileSize
  have h2 := Int.emod_nonneg x (ne_of_gt hts)
  have h3 := Int.emod_lt_of_pos x hts
  have h4 := Int.ediv_add_emod y t.tileSize
  have h5 := Int.emod_nonneg y (ne_of_gt hts)
  have h6 := Int.emod_lt_of_pos y hts
  refine ⟨⟨?_, ?_⟩, ?_, ?_⟩ <;> nlinarith

/-- C9 at the failing input: with 32-pixel tiles and the pixel `(-1,0)`, the
centre tile computed by lines 108-109 is `(0,0)`, which does not contain the
pixel (`0*32 <= -1` is false; the containing tile is `(-1,0)`); on the 3x1
strip whose only solid cell is `(1,0)` the query therefore returns the
rectangle of `(1,0)`, a tile that is not adjacent to the pixel's tile. -/
theorem centreTile_negative_pixel :
    centreTile strip3x1 (-1) 0 = (0, 0) ∧
      ¬ ((centreTile strip3x1 (-1) 0).1 * strip3x1.tileSize ≤ -1) ∧
      ((-1 : Int) * strip3x1.tileSize ≤ -1 ∧ (-1 : Int) < (-1 + 1) * strip3x1.tileSize) ∧
      getRectanglesSurrounding strip3x1 (-1) 0 = Except.ok [⟨32, 0, 32, 32⟩] := by
  decide

/-! ## C10: the sprite atlas -/

theorem init_ok (t : Tilemap) (hts : t.tileSize ≠ 0) (hn : 0 < nTiles t) :
    ∃ t1, init t = Except.ok t1 ∧ (t1.tileTextures.length : Int) = nTiles t ∧
      ∀ id : Nat, (id : Int) < nTiles t → t1.tileTextures[id]? = some (cropTile t id) := by
  refine ⟨{ t with tileTextures :=
    (List.range (nTiles t).toNat).map (fun (id : Nat) => cropTile t (id : Int)) }, ?_, ?_, ?_⟩
  · simp [init, hts, not_le.2 hn, pure, Except.pure]
  · simp only [List.length_map, List.length_range]
    omega
  · intro id hid
    have : id < (nTiles t).toNat := by omega
    simp [List.getElem?_map, List.getElem?_range, this]

/-- C10 at the failing input: for a 64x64 tileset image and `tileSize = 32`
the atlas has 4 sprites, but they are cut at the pixel origins `(0,0)`,
`(32,0)`, `(64,0)`, `(96,0)`: lines 31-32 divide by `tileSize` (32), not by the
number of tile columns (2), so sprite 2 is not the crop at `(0,32)` and sprite
3 is not the crop at `(32,32)`. -/
theorem init_atlas_64 :
    (init atlas64).map Tilemap.tileTextures = Except.ok
        [⟨0, 0, 32, 32⟩, ⟨32, 0, 32, 32⟩, ⟨64, 0, 32, 32⟩, ⟨96, 0, 32, 32⟩] ∧
      cropTile atlas64 2 ≠ atlas64.tilemapTexture.crop (Int.tmod 2 2 * 32) (Int.tdiv 2 2 * 32) 32 32 ∧
      cropTile atlas64 3 ≠ atlas64.tilemapTexture.crop (Int.tmod 3 2 * 32) (Int.tdiv 3 2 * 32) 32 32 := by
  decide

/-! ## C3: the metadata loader -/

theorem readTokens_eq (line token : List Char) :
    readTokens line token = (commaTokens line).modifyHead (fun s => token ++ s) := by
  unfold commaTokens List.splitOn
  induction line generalizing token with
  | nil => simp [readTokens, List.splitOnP_nil, List.modifyHead]
  | cons c cs ih =>
    rw [List.splitOnP_cons]
    by_cases hc : c = ','
    · subst hc
      simp only [readTokens, if_true, ih [], beq_self_eq_true]
      simp [List.modifyHead]
      cases List.splitOnP (fun x => x == ',') cs <;> simp [List.modifyHead]
    · have hb : (c == ',') = false := by simpa using hc
      simp only [readTokens, hc, if_false, ih (token ++ [c]), hb, Bool.false_eq_true]
      cases List.splitOnP (fun x => x == ',') cs <;> simp [List.modifyHead]

theorem readTokens_nil_eq (line : List Char) : readTokens line [] = commaTokens line := by
  rw [readTokens_eq]
  cases commaTokens line <;> simp [List.modifyHead]

theorem readTileLines_ok (lines : List (List Char)) (solid foreground : List Bool)
    (h : ∀ l ∈ lines, 2 ≤ (commaTokens l).length) :
    readTileLines lines solid foreground = Except.ok
      (solid ++ lines.map (fun l => tokenIsTrue l 0),
        foreground ++ lines.map (fun l => tokenIsTrue l 1)) := by
  induction lines generalizing solid foreground with
  | nil => simp [readTileLines, pure, Except.pure]
  | cons l ls ih =>
    have hl := h l (List.mem_cons_self l ls)
    have hls : ∀ m ∈ ls, 2 ≤ (commaTokens m).length :=
      fun m hm => h m (List.mem_cons_of_mem l hm)
    obtain ⟨a, ha⟩ : ∃ a, (commaTokens l)[0]? = some a :=
      ⟨(commaTokens l)[0], List.getElem?_eq_getElem (by omega)⟩
    obtain ⟨b, hb⟩ : ∃ b, (commaTokens l)[1]? = some b :=
      ⟨(commaTokens l)[1], List.getElem?_eq_getElem (by omega)⟩
    simp only [readTileLines, readTokens_nil_eq, vectorAt, ha, hb, bind, Except.bind, pure,
      Except.pure]
    rw [ih _ _ hls]
    simp [tokenIsTrue, ha, hb, TILE_SOLID, TILE_PASSABLE, TILE_FOREGROUND, TILE_BACKGROUND]

/-- C3: for every metadata file in which each line has at least two
comma-separated tokens, `loadTileData` succeeds and produces exactly one record
per line, in file order: for every line index `i`, `isSolid(i)` is true exactly
when token 0 of line `i` is the string `"true"`, and `isInForeground(i)` is true
exactly when token 1 of line `i` is the string `"true"`. -/
theorem loadTileData_records (t : Tilemap) (lines : List (List Char))
    (h : ∀ l ∈ lines, 2 ≤ (l.splitOn ',').length) :
    ∃ t1, loadTileData t (some lines) = Except.ok t1 ∧
      t1.solidData.length = lines.length ∧ t1.foregroundData.length = lines.length ∧
      ∀ (i : Nat) (hi : i < lines.length),
        isSolid t1 i = Except.ok (decide (((lines.get ⟨i, hi⟩).splitOn ',')[0]? = some "true".toList)) ∧
        isInForeground t1 i =
          Except.ok (decide (((lines.get ⟨i, hi⟩).splitOn ',')[1]? = some "true".toList)) := by
  refine ⟨{ t with solidData := lines.map (fun l => tokenIsTrue l 0),
                   foregroundData := lines.map (fun l => tokenIsTrue l 1) }, ?_, ?_, ?_, ?_⟩
  · simp [loadTileData, readTileLines_ok lines [] [] h, bind, Except.bind, pure, Except.pure]
  · simp
  · simp
  · intro i hi
    constructor
    · apply readAt_natCast
      simp [List.getElem?_map, List.getElem?_eq_getElem hi, tokenIsTrue, commaTokens]
    · apply readAt_natCast
      simp [List.getElem?_map, List.getElem?_eq_getElem hi, tokenIsTrue, commaTokens]

theorem loadTileData_records_witness :
    ∃ t1, loadTileData atlas64 (some metadataExample) = Except.ok t1 ∧
      isSolid t1 0 = Except.ok true ∧ isInForeground t1 0 = Except.ok false ∧
      isSolid t1 1 = Except.ok false ∧ isInForeground t1 1 = Except.ok true := by
  obtain ⟨t1, h1, _, _, h2⟩ := loadTileData_records atlas64 metadataExample (by decide)
  exact ⟨t1, h1, (h2 0 (by decide)).1, (h2 0 (by decide)).2, (h2 1 (by decide)).1,
    (h2 1 (by decide)).2⟩

/-! ## C2: the layout loader -/

theorem digitChar_isDigit : ∀ d : Nat, d < 10 →
    (Nat.digitChar d).isDigit = true ∧ digitValue (Nat.digitChar d) = d := by
  decide

theorem isDigit_not_special (c : Char) (h : c.isDigit = true) :
    isspace c = false ∧ c ≠ '-' ∧ c ≠ '+' := by
  refine ⟨?_, ?_, ?_⟩
  · cases hs : isspace c with
    | false => rfl
    | true =>
      simp only [isspace, Bool.or_eq_true, decide_eq_true_eq] at hs
      rcases hs with ((((h1 | h1) | h1) | h1) | h1) | h1 <;> subst h1 <;> simp at h
  · rintro rfl
    exact absurd h (by decide)
  · rintro rfl
    exact absurd h (by decide)

theorem atoiDigits_append (l r : List Char) (acc : Int) (hl : ∀ c ∈ l, c.isDigit = true) :
    atoiDigits (l ++ r) acc = atoiDigits r (atoiDigits l acc) := by
  induction l generalizing acc with
  | nil => simp [atoiDigits]
  | cons c cs ih =>
    have hc : c.isDigit = true := hl c (List.mem_cons_self c cs)
    simp only [List.cons_append, atoiDigits, hc, if_true]
    exact ih _ (fun x hx => hl x (List.mem_cons_of_mem c hx))

theorem toDigitsCore_append (fuel n : Nat) (ds : List Char) :
    Nat.toDigitsCore 10 fuel n ds = Nat.toDigitsCore 10 fuel n [] ++ ds := by
  induction fuel generalizing n ds with
  | zero => simp [Nat.toDigitsCore]
  | succ f ih =>
    simp only [Nat.toDigitsCore]
    split
    · simp
    · rw [ih (n / 10) (Nat.digitChar (n % 10) :: ds), ih (n / 10) [Nat.digitChar (n % 10)]]
      simp

theorem toDigitsCore_spec (fuel n : Nat) (hf : n < fuel) :
    (∀ c ∈ Nat.toDigitsCore 10 fuel n [], c.isDigit = true) ∧
      Nat.toDigitsCore 10 fuel n [] ≠ [] ∧
      atoiDigits (Nat.toDigitsCore 10 fuel n []) 0 = n := by
  induction fuel generalizing n with
  | zero => omega
  | succ f ih =>
    have hd := digitChar_isDigit (n % 10) (Nat.mod_lt n (by decide))
    simp only [Nat.toDigitsCore]
    split
    · rename_i h0
      refine ⟨by simpa using hd.1, by simp, ?_⟩
      simp only [atoiDigits, hd.1, if_true, hd.2]
      omega
    · rename_i h0
      have hlt : n / 10 < f := by omega
      obtain ⟨h1, h2, h3⟩ := ih (n / 10) hlt
      rw [toDigitsCore_append]
      refine ⟨?_, by simp, ?_⟩
      · intro c hc
        rcases List.mem_append.1 hc with hc | hc
        · exact h1 c hc
        · simp only [List.mem_singleton] at hc
          rw [hc]
          exact hd.1
      · rw [atoiDigits_append _ _ _ h1, h3]
        simp only [atoiDigits, hd.1, if_true, hd.2]
        omega

theorem decimalValue_of_digits (l : List Char) (hne : l ≠ [])
    (hl : ∀ c ∈ l, c.isDigit = true) : decimalValue l = atoiDigits l 0 := by
  cases l with
  | nil => exact absurd rfl hne
  | cons c cs =>
    obtain ⟨h1, h2, h3⟩ := isDigit_not_special c (hl c (List.mem_cons_self c cs))
    simp [decimalValue, List.dropWhile, h1, h2, h3]

theorem decimalValue_toDigits (n : Nat) : decimalValue (Nat.toDigits 10 n) = n := by
  obtain ⟨h1, h2, h3⟩ := toDigitsCore_spec (n + 1) n (Nat.lt_succ_self n)
  unfold Nat.toDigits
  rw [decimalValue_of_digits _ h2 h1, h3]

theorem decimalValue_decimal (n : Int) : decimalValue (decimal n) = n := by
  cases n with
  | ofNat m => simpa [decimal] using decimalValue_toDigits m
  | negSucc m =>
    obtain ⟨h1, h2, h3⟩ := toDigitsCore_spec (m + 1 + 1) (m + 1) (Nat.lt_succ_self _)
    have hs : isspace '-' = false := by decide
    simp only [decimal, decimalValue, List.dropWhile, hs, if_true]
    unfold Nat.toDigits
    rw [h3]
    simp [Int.negSucc_eq]

theorem wrapInt_of_fitsInt (v : Int) (h : FitsInt v) : wrapInt v = v := by
  unfold FitsInt at h
  unfold wrapInt
  omega

/-- Reading back the decimal numeral of a number in the range of `int` with
`atoi` gives the number. -/
theorem atoi_decimal (n : Int) (h : FitsInt n) : atoi (decimal n) = n := by
  have hs : saturateLong n = n := by
    unfold FitsInt at h
    unfold saturateLong
    rw [if_neg (by omega), if_neg (by omega)]
  rw [atoi, decimalValue_decimal, hs, wrapInt_of_fitsInt n h]

theorem storeTiles_ok (ls : List (List Char)) (pre suf : List Int)
    (h : ls.length ≤ suf.length) :
    storeTiles ls pre.length (pre ++ suf) =
      Except.ok (pre ++ ls.map atoi ++ suf.drop ls.length) := by
  induction ls generalizing pre suf with
  | nil => simp [storeTiles, pure, Except.pure]
  | cons l rest ih =>
    cases suf with
    | nil => simp at h
    | cons s suf1 =>
      have hrest : rest.length ≤ suf1.length := by simpa using h
      have hw : writeAt (pre ++ s :: suf1) (pre.length : Int) (atoi l) =
          Except.ok ((pre ++ [atoi l]) ++ suf1) := by
        simp [writeAt, pure, Except.pure]
      simp only [storeTiles, hw, bind, Except.bind]
      have hlen : pre.length + 1 = (pre ++ [atoi l]).length := by simp
      rw [hlen, ih (pre ++ [atoi l]) suf1 hrest]
      simp

theorem map_atoi_decimal (d : List Int) (hd : ∀ c ∈ d, FitsInt c) :
    (d.map decimal).map atoi = d := by
  induction d with
  | nil => rfl
  | cons a as ih =>
    simp only [List.map_cons, atoi_decimal a (hd a (List.mem_cons_self a as)),
      ih (fun c hc => hd c (List.mem_cons_of_mem a hc))]

theorem nat_cell_index_lt (w h x y : Nat) (hx : x < w) (hy : y < h) : x + y * w < w * h := by
  have h1 : (y + 1) * w ≤ h * w := Nat.mul_le_mul_right w hy
  nlinarith

theorem readAt_outside {α : Type} (a : List α) (i : Int) (h : i < 0 ∨ a.length ≤ i.toNat) :
    readAt a i = Except.error Fault.outOfBounds := by
  unfold readAt
  split
  · rcases h with h | h
    · omega
    · rw [List.getElem?_eq_none h]
      rfl
  · rfl

/-- C12, as stated, fails: with a one-record metadata table, `isSolid(-1)`,
`isSolid(1)`, `isInForeground(-1)` and `isInForeground(1)` read outside the
array instead of returning false. -/
theorem isSolid_outside_table :
    isSolid grid1x1 (-1) = Except.error Fault.outOfBounds ∧
      isSolid grid1x1 1 = Except.error Fault.outOfBounds ∧
      isInForeground grid1x1 (-1) = Except.error Fault.outOfBounds ∧
      isInForeground grid1x1 1 = Except.error Fault.outOfBounds ∧
      isSolid grid1x1 1 ≠ Except.ok false := by
  decide

/-- C12 (amended): for every id with `0 <= id` below the number of metadata
records, the id-indexed `isSolid(id)` and `isInForeground(id)` do not fault and
return the flags of record `id`. -/
theorem isSolid_inside_table (t : Tilemap) (id : Int) (h : HasRecord t id) :
    ∃ s f, isSolid t id = Except.ok s ∧ isInForeground t id = Except.ok f ∧
      t.solidData[id.toNat]? = some s ∧ t.foregroundData[id.toNat]? = some f := by
  obtain ⟨h0, h1, h2⟩ := h
  exact ⟨t.solidData[id.toNat], t.foregroundData[id.toNat],
    readAt_of_getElem? _ _ _ h0 (List.getElem?_eq_getElem h1),
    readAt_of_getElem? _ _ _ h0 (List.getElem?_eq_getElem h2),
    List.getElem?_eq_getElem h1, List.getElem?_eq_getElem h2⟩

theorem isSolid_inside_table_witness :
    ∃ s f, isSolid strip3x1 1 = Except.ok s ∧ isInForeground strip3x1 1 = Except.ok f ∧
      strip3x1.solidData[(1 : Int).toNat]? = some s ∧
      strip3x1.foregroundData[(1 : Int).toNat]? = some f :=
  isSolid_inside_table strip3x1 1 (by decide)

/-! ## C13: malformed metadata lines -/

theorem commaTokens_ne_nil (line : List Char) : commaTokens line ≠ [] :=
  List.splitOnP_ne_nil _ line

theorem readTileLines_malformed (lines : List (List Char)) (solid foreground : List Bool)
    (h : ∃ l ∈ lines, (commaTokens l).length < 2) :
    readTileLines lines solid foreground = Except.error Fault.outOfRange := by
  induction lines generalizing solid foreground with
  | nil => simp at h
  | cons l ls ih =>
    have hne := commaTokens_ne_nil l
    cases htok : commaTokens l with
    | nil => exact absurd htok hne
    | cons a rest =>
      cases rest with
      | nil =>
        simp [readTileLines, readTokens_nil_eq, htok, vectorAt, bind, Except.bind, pure,
          Except.pure, throw, throwThe, MonadExceptOf.throw]
      | cons b rest2 =>
        have hls : ∃ m ∈ ls, (commaTokens m).length < 2 := by
          obtain ⟨m, hm, hlen⟩ := h
          rcases List.mem_cons.1 hm with rfl | hm
          · rw [htok] at hlen
            simp only [List.length_cons] at hlen
            omega
          · exact ⟨m, hm, hlen⟩
        simp only [readTileLines, readTokens_nil_eq, htok, vectorAt, List.getElem?_cons_zero,
          List.getElem?_cons_succ, bind, Except.bind, pure, Except.pure]
        exact ih _ _ hls

/-- C13: for every metadata file that contains a line with fewer than two
comma-separated tokens, `loadTileData` fails with an error (the exception
`std::out_of_range` of `tokens.at(1)`): it produces no record table and reads
no missing token. -/
theorem loadTileData_malformed (t : Tilemap) (lines : List (List Char))
    (h : ∃ l ∈ lines, (l.splitOn ',').length < 2) :
    loadTileData t (some lines) = Except.error Fault.outOfRange := by
  simp [loadTileData, readTileLines_malformed lines [] [] h, bind, Except.bind]

theorem loadTileData_malformed_witness :
    loadTileData atlas64 (some metadataMalformed) = Except.error Fault.outOfRange ∧
      loadTileData atlas64 (some [[]]) = Except.error Fault.outOfRange :=
  ⟨loadTileData_malformed atlas64 metadataMalformed (by decide),
    loadTileData_malformed atlas64 [[]] (by decide)⟩

/-! ## C14: what `setTile` leaves alone -/

theorem cell_index_injective (w a b x y : Int) (ha : 0 ≤ a) (haw : a < w) (hx : 0 ≤ x)
    (hxw : x < w) (h : a + b * w = x + y * w) : a = x ∧ b = y := by
  have hby : b = y := by
    rcases lt_trichotomy b y with hlt | heq | hgt
    · have h1 : (b + 1) * w ≤ y * w := mul_le_mul_of_nonneg_right hlt (by omega)
      nlinarith
    · exact heq
    · have h1 : (y + 1) * w ≤ b * w := mul_le_mul_of_nonneg_right hgt (by omega)
      nlinarith
  subst hby
  exact ⟨by linarith, rfl⟩

theorem readAt_set_ne {α : Type} (a : List α) (i j : Int) (v : α) (hi : 0 ≤ i) (hj : 0 ≤ j)
    (hne : i ≠ j) : readAt (a.set i.toNat v) j = readAt a j := by
  have hn : i.toNat ≠ j.toNat := by omega
  simp [readAt, hj, List.getElem?_set_ne hn]

/-- C14: for every tilemap (tile array allocated) and all arguments
`(x,y,id)`, `setTile(x,y,id)` succeeds, changes no grid cell other than `(x,y)`
(neither as read by `getTileId` nor in the array itself) and leaves `width`,
`height`, `tileSize`, the solid/foreground metadata, the tileset image and the
atlas unchanged; when `(x,y)` is outside the grid or `id` is negative it leaves
the whole state unchanged. -/
theorem setTile_frame (t : Tilemap) (x y id : Int) (hg : GridAllocated t) :
    ∃ t1, setTile t x y id = Except.ok t1 ∧
      t1.width = t.width ∧ t1.height = t.height ∧ t1.tileSize = t.tileSize ∧
      t1.solidData = t.solidData ∧ t1.foregroundData = t.foregroundData ∧
      t1.tilemapTexture = t.tilemapTexture ∧ t1.tileTextures = t.tileTextures ∧
      t1.tileData.length = t.tileData.length ∧
      (∀ a b : Int, (a, b) ≠ (x, y) → getTileId t1 a b = getTileId t a b) ∧
      (∀ i : Nat, i ≠ (x + y * t.width).toNat → t1.tileData[i]? = t.tileData[i]?) ∧
      (tileInRange t x y = false ∨ id < 0 → t1 = t) := by
  by_cases hguard : (tileInRange t x y && decide (id ≥ 0)) = true
  · have hr : tileInRange t x y = true := by
      simp only [Bool.and_eq_true] at hguard
      exact hguard.1
    have hid : 0 ≤ id := by
      simp only [Bool.and_eq_true, decide_eq_true_eq] at hguard
      exact hguard.2
    obtain ⟨h0, h1⟩ := cell_index_lt_length t x y hg hr
    obtain ⟨hx0, _, hxw, _⟩ := (tileInRange_iff t x y).1 hr
    refine ⟨{ t with tileData := t.tileData.set (x + y * t.width).toNat id }, ?_, rfl, rfl, rfl,
      rfl, rfl, rfl, rfl, by simp, ?_, ?_, ?_⟩
    · simp [setTile, writeAt, hr, hid, h0, h1, bind, Except.bind, pure, Except.pure]
    · intro a b hab
      cases hrab : tileInRange t a b with
      | false =>
        have hr1 : tileInRange { t with tileData := t.tileData.set (x + y * t.width).toNat id }
            a b = false := hrab
        rw [getTileId_out _ a b hr1, getTileId_out t a b hrab]
      | true =>
        have hr1 : tileInRange { t with tileData := t.tileData.set (x + y * t.width).toNat id }
            a b = true := hrab
        obtain ⟨ha0, _, haw, _⟩ := (tileInRange_iff t a b).1 hrab
        obtain ⟨h2, _⟩ := cell_index_lt_length t a b hg hrab
        have hne : x + y * t.width ≠ a + b * t.width := by
          intro heq
          obtain ⟨e1, e2⟩ := cell_index_injective t.width a b x y ha0 haw hx0 hxw heq.symm
          exact hab (by rw [e1, e2])
        simp only [getTileId, hr1, hrab, if_true]
        exact readAt_set_ne _ _ _ _ h0 h2 hne
    · intro i hi
      exact List.getElem?_set_ne (Ne.symm hi)
    · rintro (hout | hneg)
      · rw [hr] at hout
        exact absurd hout (by decide)
      · omega
  · refine ⟨t, ?_, rfl, rfl, rfl, rfl, rfl, rfl, rfl, rfl, fun _ _ _ => rfl, fun _ _ => rfl,
      fun _ => rfl⟩
    simp [setTile, hguard, pure, Except.pure]

theorem setTile_frame_witness :
    ∃ t1, setTile strip3x1 1 0 0 = Except.ok t1 ∧
      t1.width = strip3x1.width ∧ t1.height = strip3x1.height ∧
      t1.tileSize = strip3x1.tileSize ∧
      t1.solidData = strip3x1.solidData ∧ t1.foregroundData = strip3x1.foregroundData ∧
      t1.tilemapTexture = strip3x1.tilemapTexture ∧ t1.tileTextures = strip3x1.tileTextures ∧
      t1.tileData.length = strip3x1.tileData.length ∧
      (∀ a b : Int, (a, b) ≠ (1, 0) → getTileId t1 a b = getTileId strip3x1 a b) ∧
      (∀ i : Nat, i ≠ ((1 : Int) + 0 * strip3x1.width).toNat →
        t1.tileData[i]? = strip3x1.tileData[i]?) ∧
      (tileInRange strip3x1 1 0 = false ∨ (0 : Int) < 0 → t1 = strip3x1) :=
  setTile_frame strip3x1 1 0 0 (by decide)

/-! ## C15: tile ids and their metadata records -/

theorem getTileId_in_range (t : Tilemap) (x y : Int) (hg : GridAllocated t)
    (hr : tileInRange t x y = true) :
    ∃ id, getTileId t x y = Except.ok id ∧ id ∈ t.tileData := by
  obtain ⟨h0, h1⟩ := cell_index_lt_length t x y hg hr
  refine ⟨t.tileData[(x + y * t.width).toNat], ?_, List.getElem_mem h1⟩
  simp only [getTileId, hr, if_true]
  exact readAt_of_getElem? _ _ _ h0 (List.getElem?_eq_getElem h1)

/-- C15, as stated, fails: on the 3x1 strip, where every cell holds an id with
a metadata record, `setTile(0,0,5)` is accepted and stores id 5, which has no
record; `isSolid(0,0)` and `isInForeground(0,0)` then read outside the
tables. -/
theorem setTile_stores_unrecorded_id :
    GridAllocated strip3x1 ∧ (∀ c ∈ strip3x1.tileData, HasRecord strip3x1 c) ∧
      setTile strip3x1 0 0 5 = Except.ok { strip3x1 with tileData := [5, 1, 0] } ∧
      ¬ HasRecord { strip3x1 with tileData := [5, 1, 0] } 5 ∧
      isSolidXY { strip3x1 with tileData := [5, 1, 0] } 0 0 = Except.error Fault.outOfBounds ∧
      isInForegroundXY { strip3x1 with tileData := [5, 1, 0] } 0 0 =
        Except.error Fault.outOfBounds := by
  decide

/-- C15 (amended): if every cell of the grid holds a tile id that has a record
in the metadata tables, then after `setTile(x,y,id)` with an `id` that has a
record (or with arguments for which `setTile` writes nothing: `(x,y)` outside
the grid or `id` negative) every cell still holds a tile id that has a record,
and `isSolid(x,y)` and `isInForeground(x,y)` return a value for every in-range
cell. -/
theorem setTile_keeps_records (t : Tilemap) (x y id : Int) (hg : GridAllocated t)
    (hrec : ∀ c ∈ t.tileData, HasRecord t c)
    (hid : tileInRange t x y = true → 0 ≤ id → HasRecord t id) :
    ∃ t1, setTile t x y id = Except.ok t1 ∧
      (∀ c ∈ t1.tileData, HasRecord t1 c) ∧
      ∀ a b : Int, tileInRange t1 a b = true →
        ∃ s f, isSolidXY t1 a b = Except.ok s ∧ isInForegroundXY t1 a b = Except.ok f := by
  have key : ∀ t1 : Tilemap, GridAllocated t1 → (∀ c ∈ t1.tileData, HasRecord t1 c) →
      ∀ a b : Int, tileInRange t1 a b = true →
        ∃ s f, isSolidXY t1 a b = Except.ok s ∧ isInForegroundXY t1 a b = Except.ok f := by
    intro t1 hg1 hrec1 a b hr
    obtain ⟨c, hc, hmem⟩ := getTileId_in_range t1 a b hg1 hr
    obtain ⟨h0, h1, h2⟩ := hrec1 c hmem
    refine ⟨t1.solidData[c.toNat], t1.foregroundData[c.toNat], ?_, ?_⟩
    · simp only [isSolidXY, hc, bind, Except.bind]
      exact readAt_of_getElem? _ _ _ h0 (List.getElem?_eq_getElem h1)
    · simp only [isInForegroundXY, hc, bind, Except.bind]
      exact readAt_of_getElem? _ _ _ h0 (List.getElem?_eq_getElem h2)
  by_cases hguard : (tileInRange t x y && decide (id ≥ 0)) = true
  · simp only [Bool.and_eq_true, decide_eq_true_eq] at hguard
    obtain ⟨hr, hid0⟩ := hguard
    obtain ⟨h0, h1⟩ := cell_index_lt_length t x y hg hr
    have hrec1 : ∀ c ∈ (t.tileData.set (x + y * t.width).toNat id), HasRecord t c := by
      intro c hc
      rcases List.mem_or_eq_of_mem_set hc with h | h
      · exact hrec c h
      · rw [h]
        exact hid hr hid0
    have hg1 : GridAllocated { t with tileData := t.tileData.set (x + y * t.width).toNat id } := by
      unfold GridAllocated at hg ⊢
      simpa using hg
    refine ⟨{ t with tileData := t.tileData.set (x + y * t.width).toNat id }, ?_, hrec1,
      key _ hg1 hrec1⟩
    simp [setTile, writeAt, hr, hid0, h0, h1, bind, Except.bind, pure, Except.pure]
  · refine ⟨t, ?_, hrec, key t hg hrec⟩
    simp [setTile, hguard, pure, Except.pure]

theorem setTile_keeps_records_witness :
    ∃ t1, setTile strip3x1 0 0 1 = Except.ok t1 ∧
      (∀ c ∈ t1.tileData, HasRecord t1 c) ∧
      ∀ a b : Int, tileInRange t1 a b = true →
        ∃ s f, isSolidXY t1 a b = Except.ok s ∧ isInForegroundXY t1 a b = Except.ok f :=
  setTile_keeps_records strip3x1 0 0 1 (by decide) (by decide) (by decide)

/-! ## C18: the writes of the layout loader -/

theorem storeTiles_overflow (ls : List (List Char)) (k : Nat) (a : List Int)
    (hk : k ≤ a.length) (h : a.length < k + ls.length) :
    storeTiles ls k a = Except.error Fault.outOfBounds := by
  induction ls generalizing k a with
  | nil => simp at h; omega
  | cons l rest ih =>
    by_cases hlt : k < a.length
    · have hw : writeAt a (k : Int) (atoi l) = Except.ok (a.set k (atoi l)) := by
        simp [writeAt, hlt, pure, Except.pure]
      simp only [storeTiles, hw, bind, Except.bind]
      apply ih
      · simp only [List.length_set]
        omega
      · simp only [List.length_set, List.length_cons] at h ⊢
        omega
    · have hw : writeAt a (k : Int) (atoi l) = Except.error Fault.outOfBounds := by
        simp [writeAt, hlt, throw, throwThe, MonadExceptOf.throw]
      simp only [storeTiles, hw, bind, Except.bind]

/-- A layout file with more data lines than `width * height` cells makes the
loop of line 56 write past the end of the tile array. -/
theorem loadData_overflow (t : Tilemap) (name wl hl : List Char) (data : List (List Char))
    (junk : Nat → Int) (h0 : 0 ≤ wrapInt (atoi wl * atoi hl))
    (h : (wrapInt (atoi wl * atoi hl)).toNat < data.length) :
    loadData t (some (name :: wl :: hl :: data)) junk = Except.error Fault.outOfBounds := by
  have hs : storeTiles data 0 ((List.range (wrapInt (atoi wl * atoi hl)).toNat).map junk) =
      Except.error Fault.outOfBounds :=
    storeTiles_overflow data 0 _ (Nat.zero_le _) (by simpa using h)
  simp [loadData, vectorAt, not_lt.2 h0, hs, bind, Except.bind, pure, Except.pure]

/-- C18 at the failing input: for the layout file with width 1, height 1 and
two data lines, the tile array has one cell; the loop of line 56 writes the
first data line at index 0 and the second at index `4 - 3 = 1`, which is not in
`[0, width*height) = [0, 1)`: the write is outside the array. -/
theorem loadData_writes_outside :
    loadData atlas64 (some layoutTooLong) (fun _ => 0) = Except.error Fault.outOfBounds ∧
      writeAt ([0] : List Int) ((3 : Int) - 3) (atoi "0".toList) = Except.ok [0] ∧
      writeAt ([0] : List Int) ((4 : Int) - 3) (atoi "0".toList) =
        Except.error Fault.outOfBounds ∧
      ¬ ((4 : Int) - 3 < atoi "1".toList * atoi "1".toList) := by
  decide

/-! ## C11, C16, C17, C19: the renderer -/

theorem mem_loopValues (lo hi v : Int) : v ∈ loopValues lo hi ↔ lo ≤ v ∧ v ≤ hi := by
  simp only [loopValues, List.mem_map, List.mem_range]
  constructor
  · rintro ⟨k, hk, rfl⟩
    omega
  · rintro ⟨h1, h2⟩
    exact ⟨(v - lo).toNat, by omega, by omega⟩

theorem loopValues_pairwise (lo hi : Int) : (loopValues lo hi).Pairwise (fun a b => a < b) := by
  unfold loopValues
  rw [List.pairwise_map]
  exact (List.pairwise_lt_range _).imp (fun h => by omega)

theorem mem_windowCells (x1 x2 y1 y2 x y : Int) :
    (x, y) ∈ windowCells x1 x2 y1 y2 ↔ x1 ≤ x ∧ x ≤ x2 ∧ y1 ≤ y ∧ y ≤ y2 := by
  simp only [windowCells, List.mem_flatMap, List.mem_map, Prod.mk.injEq, mem_loopValues]
  constructor
  · rintro ⟨a, ⟨h1, h2⟩, b, ⟨h3, h4⟩, rfl, rfl⟩
    exact ⟨h1, h2, h3, h4⟩
  · rintro ⟨h1, h2, h3, h4⟩
    exact ⟨x, ⟨h1, h2⟩, y, ⟨h3, h4⟩, rfl, rfl⟩

theorem windowCells_pairwise (x1 x2 y1 y2 : Int) :
    (windowCells x1 x2 y1 y2).Pairwise
      (fun p q => p.1 < q.1 ∨ (p.1 = q.1 ∧ p.2 < q.2)) := by
  unfold windowCells
  rw [List.pairwise_flatMap]
  constructor
  · intro x _
    rw [List.pairwise_map]
    exact (loopValues_pairwise y1 y2).imp (fun h => Or.inr ⟨rfl, h⟩)
  · refine (loopValues_pairwise x1 x2).imp ?_
    intro a b hab p hp q hq
    obtain ⟨_, _, rfl⟩ := List.mem_map.1 hp
    obtain ⟨_, _, rfl⟩ := List.mem_map.1 hq
    exact Or.inl hab

theorem windowCells_nodup (x1 x2 y1 y2 : Int) : (windowCells x1 x2 y1 y2).Nodup := by
  refine (windowCells_pairwise x1 x2 y1 y2).imp ?_
  rintro p q (h | ⟨h1, h2⟩) heq
  · rw [heq] at h
    exact lt_irrefl _ h
  · rw [heq] at h2
    exact lt_irrefl _ h2

theorem renderTile_eq (t : Tilemap) (g : Graphics) (camera : Camera) (layer : Bool) (x y : Int) :
    renderTile t g camera layer x y =
      (tileCalls t camera layer (x, y)).map (fun cs => { g with drawn := g.drawn ++ cs }) := by
  unfold renderTile tileCalls
  cases h1 : isInForegroundXY t x y with
  | error e => rfl
  | ok f =>
    by_cases hf : f = layer
    · cases h2 : getTileId t x y with
      | error e => simp [hf, h2, bind, Except.bind, Except.map]
      | ok id =>
        cases h3 : readAt t.tileTextures id with
        | error e => simp [hf, h2, h3, bind, Except.bind, Except.map]
        | ok s =>
          simp [hf, h2, h3, bind, Except.bind, Except.map, pure, Except.pure,
            Graphics.drawTexture]
    · simp [hf, bind, Except.bind, Except.map, pure, Except.pure]

theorem foldlM_renderTile (t : Tilemap) (camera : Camera) (layer : Bool)
    (cells : List (Int × Int)) (g : Graphics) :
    cells.foldlM (fun g p => renderTile t g camera layer p.1 p.2) g =
      (cellCalls t camera layer cells).map (fun cs => { g with drawn := g.drawn ++ cs }) := by
  induction cells generalizing g with
  | nil => simp [cellCalls, Except.map, pure, Except.pure]
  | cons p ps ih =>
    rw [List.foldlM_cons, renderTile_eq]
    cases h1 : tileCalls t camera layer (p.1, p.2) with
    | error e =>
      have h1p : tileCalls t camera layer p = Except.error e := h1
      simp [cellCalls, h1p, bind, Except.bind, Except.map]
    | ok cs =>
      have h1p : tileCalls t camera layer p = Except.ok cs := h1
      simp only [Except.map, bind, Except.bind, cellCalls, h1p]
      rw [ih]
      cases h2 : cellCalls t camera layer ps with
      | error e => rfl
      | ok rest => simp [Except.map, pure, Except.pure, List.append_assoc]

theorem foldlM_nested {σ : Type} (f : σ → Int → Int → Except Fault σ) (xs ys : List Int) (s : σ) :
    xs.foldlM (fun s x => ys.foldlM (fun s y => f s x y) s) s =
      (xs.flatMap (fun x => ys.map (fun y => (x, y)))).foldlM (fun s p => f s p.1 p.2) s := by
  induction xs generalizing s with
  | nil => rfl
  | cons x xs ih =>
    rw [List.foldlM_cons, List.flatMap_cons, List.foldlM_append, List.foldlM_map]
    congr 1
    funext s1
    exact ih s1

theorem render_eq_cellCalls (t : Tilemap) (g : Graphics) (camera : Camera) (layer : Bool)
    (hts : t.tileSize ≠ 0) :
    render t g camera layer =
      (cellCalls t camera layer (windowCells (passWindow t g camera).1
        (passWindow t g camera).2.1 (passWindow t g camera).2.2.1
        (passWindow t g camera).2.2.2)).map
        (fun cs => { g with drawn := g.drawn ++ cs }) := by
  unfold render
  simp only [hts, if_false]
  rw [foldlM_nested (fun g x y => renderTile t g camera layer x y)]
  rw [← foldlM_renderTile]
  rfl

theorem render_eq_passCalls (t : Tilemap) (g : Graphics) (camera : Camera) (layer : Bool) :
    render t g camera layer =
      (passCalls t g camera layer).map (fun cs => { g with drawn := g.drawn ++ cs }) := by
  by_cases hts : t.tileSize = 0
  · simp [passCalls, render, hts, Except.map, throw, throwThe, MonadExceptOf.throw]
  · unfold passCalls
    rw [render_eq_cellCalls t g camera layer hts,
      render_eq_cellCalls t { g with drawn := [] } camera layer hts]
    have hwin : passWindow t { g with drawn := [] } camera = passWindow t g camera := rfl
    rw [hwin]
    generalize cellCalls t camera layer _ = r
    cases r <;> simp [Except.map]

theorem wrapInt_sub_sub (a b c : Int) (h : FitsInt (a - (b + c))) :
    wrapInt (wrapInt (wrapInt a - b) - c) = a - (b + c) := by
  unfold FitsInt at h
  unfold wrapInt
  omega

theorem wrapInt_add_add (a b c : Int) (h : FitsInt (a + (b + c))) :
    wrapInt (wrapInt (wrapInt a + b) + c) = a + (b + c) := by
  unfold FitsInt at h
  unfold wrapInt
  omega

/-- When the tile counts of the viewport and the four window sums fit in
`int`, the window of lines 89-94 is the one of the spec. -/
theorem passWindow_eq (t : Tilemap) (g : Graphics) (camera : Camera)
    (hrow : FitsInt (Int.tdiv g.renderBufferWidth t.tileSize))
    (hcol : FitsInt (Int.tdiv g.renderBufferHeight t.tileSize))
    (hx1 : FitsInt (Int.tdiv camera.focusX t.tileSize -
      (Int.tdiv (Int.tdiv g.renderBufferWidth t.tileSize) 2 + 4)))
    (hx2 : FitsInt (Int.tdiv camera.focusX t.tileSize +
      (Int.tdiv (Int.tdiv g.renderBufferWidth t.tileSize) 2 + 4)))
    (hy1 : FitsInt (Int.tdiv camera.focusY t.tileSize -
      (Int.tdiv (Int.tdiv g.renderBufferHeight t.tileSize) 2 + 4)))
    (hy2 : FitsInt (Int.tdiv camera.focusY t.tileSize +
      (Int.tdiv (Int.tdiv g.renderBufferHeight t.tileSize) 2 + 4))) :
    passWindow t g camera =
      (clamp (Int.tdiv camera.focusX t.tileSize -
          (Int.tdiv (Int.tdiv g.renderBufferWidth t.tileSize) 2 + 4)) 0 t.width,
        clamp (Int.tdiv camera.focusX t.tileSize +
          (Int.tdiv (Int.tdiv g.renderBufferWidth t.tileSize) 2 + 4)) 0 t.width,
        clamp (Int.tdiv camera.focusY t.tileSize -
          (Int.tdiv (Int.tdiv g.renderBufferHeight t.tileSize) 2 + 4)) 0 t.height,
        clamp (Int.tdiv camera.focusY t.tileSize +
          (Int.tdiv (Int.tdiv g.renderBufferHeight t.tileSize) 2 + 4)) 0 t.height) := by
  unfold passWindow
  simp only [wrapInt_of_fitsInt _ hrow, wrapInt_of_fitsInt _ hcol, wrapInt_sub_sub _ _ _ hx1,
    wrapInt_add_add _ _ _ hx2, wrapInt_sub_sub _ _ _ hy1, wrapInt_add_add _ _ _ hy2]

theorem cellCalls_spec (t : Tilemap) (camera : Camera) (layer : Bool) (cells : List (Int × Int))
    (hfg : ∀ p ∈ cells, ∃ f, isInForegroundXY t p.1 p.2 = Except.ok f)
    (hsp : ∀ p ∈ cells, isInForegroundXY t p.1 p.2 = Except.ok layer →
      ∃ id s, getTileId t p.1 p.2 = Except.ok id ∧ readAt t.tileTextures id = Except.ok s)
    (hpix : ∀ p ∈ cells, FitsInt (p.1 * t.tileSize) ∧ FitsInt (p.2 * t.tileSize)) :
    ∃ calls, cellCalls t camera layer cells = Except.ok calls ∧
      List.Forall₂ (DrawsCell t camera)
        (cells.filter (fun p => isInForegroundXY t p.1 p.2 = Except.ok layer)) calls := by
  induction cells with
  | nil => exact ⟨[], rfl, by simp⟩
  | cons p ps ih =>
    obtain ⟨rest, hrest, hall⟩ := ih (fun q hq => hfg q (List.mem_cons_of_mem p hq))
      (fun q hq => hsp q (List.mem_cons_of_mem p hq))
      (fun q hq => hpix q (List.mem_cons_of_mem p hq))
    obtain ⟨f, hf⟩ := hfg p (List.mem_cons_self p ps)
    obtain ⟨hpx, hpy⟩ := hpix p (List.mem_cons_self p ps)
    by_cases hl : f = layer
    · subst hl
      obtain ⟨id, s, hid, hs⟩ := hsp p (List.mem_cons_self p ps) hf
      refine ⟨⟨s, p.1 * t.tileSize, p.2 * t.tileSize, 0xFF00FF, camera⟩ :: rest, ?_, ?_⟩
      · simp [cellCalls, tileCalls, hf, hid, hs, hrest, wrapInt_of_fitsInt _ hpx,
          wrapInt_of_fitsInt _ hpy, bind, Except.bind, pure, Except.pure]
      · rw [List.filter_cons_of_pos (by simpa using hf)]
        exact List.Forall₂.cons ⟨rfl, rfl, rfl, rfl, id, hid, hs⟩ hall
    · refine ⟨rest, ?_, ?_⟩
      · simp [cellCalls, tileCalls, hf, hl, hrest, bind, Except.bind, pure, Except.pure]
      · rw [List.filter_cons_of_neg (by simpa [hf] using hl)]
        exact hall

/-- On a tilemap whose tile array is allocated and whose tile ids all have a
sprite, every position has a sprite to draw. -/
theorem sprite_total (t : Tilemap) (x y : Int) (hg : GridAllocated t) (ha : AtlasCovers t) :
    ∃ id s, getTileId t x y = Except.ok id ∧ readAt t.tileTextures id = Except.ok s := by
  obtain ⟨id, hid, hmem⟩ := getTileId_total t x y hg
  obtain ⟨h0, h1⟩ := ha id hmem
  exact ⟨id, t.tileTextures[id.toNat], hid,
    readAt_of_getElem? _ _ _ h0 (List.getElem?_eq_getElem h1)⟩

/-- C16: for every tilemap, viewport, camera focus and layer flag, if a call
of `render` returns, it has added a sequence `calls` of draw invocations to the
graphics target, and calling `render` again (on the target as the first call
left it, or on any target with the same viewport) adds exactly the same
sequence: same sprites, positions and order.  Both calls run on the same
tilemap: `render` assigns no field of it. -/
theorem render_twice (t : Tilemap) (g g1 : Graphics) (camera : Camera) (layer : Bool)
    (h : render t g camera layer = Except.ok g1) :
    ∃ calls : List DrawCall,
      g1 = { g with drawn := g.drawn ++ calls } ∧
      render t g1 camera layer = Except.ok { g1 with drawn := g1.drawn ++ calls } ∧
      ∀ g2 : Graphics, g2.renderBufferWidth = g.renderBufferWidth →
        g2.renderBufferHeight = g.renderBufferHeight →
        render t g2 camera layer = Except.ok { g2 with drawn := g2.drawn ++ calls } := by
  rw [render_eq_passCalls] at h
  cases hp : passCalls t g camera layer with
  | error e => simp [hp, Except.map] at h
  | ok calls =>
    have hg1 : g1 = { g with drawn := g.drawn ++ calls } := by
      simp only [hp, Except.map, Except.ok.injEq] at h
      exact h.symm
    have hsame : ∀ g2 : Graphics, g2.renderBufferWidth = g.renderBufferWidth →
        g2.renderBufferHeight = g.renderBufferHeight →
        render t g2 camera layer = Except.ok { g2 with drawn := g2.drawn ++ calls } := by
      intro g2 hw hh
      have hpass : passCalls t g2 camera layer = passCalls t g camera layer := by
        unfold passCalls
        have : ({ g2 with drawn := [] } : Graphics) = { g with drawn := [] } := by
          cases g2; cases g; simp_all
        rw [this]
      rw [render_eq_passCalls, hpass, hp]
      rfl
    refine ⟨calls, hg1, hsame g1 (by rw [hg1]) (by rw [hg1]), hsame⟩

theorem render_twice_witness :
    ∃ calls : List DrawCall,
      ({ screen64 with drawn := [⟨⟨32, 0, 32, 32⟩, 0, 32, 0xFF00FF, cameraOrigin⟩,
          ⟨⟨32, 0, 32, 32⟩, 32, 0, 0xFF00FF, cameraOrigin⟩] } : Graphics) =
        { screen64 with drawn := screen64.drawn ++ calls } ∧
      render layered2x2 { screen64 with drawn := [⟨⟨32, 0, 32, 32⟩, 0, 32, 0xFF00FF, cameraOrigin⟩,
          ⟨⟨32, 0, 32, 32⟩, 32, 0, 0xFF00FF, cameraOrigin⟩] } cameraOrigin true =
        Except.ok { screen64 with drawn := [⟨⟨32, 0, 32, 32⟩, 0, 32, 0xFF00FF, cameraOrigin⟩,
          ⟨⟨32, 0, 32, 32⟩, 32, 0, 0xFF00FF, cameraOrigin⟩] ++ calls } ∧
      ∀ g2 : Graphics, g2.renderBufferWidth = screen64.renderBufferWidth →
        g2.renderBufferHeight = screen64.renderBufferHeight →
        render layered2x2 g2 cameraOrigin true = Except.ok { g2 with drawn := g2.drawn ++ calls } :=
  render_twice layered2x2 screen64 _ cameraOrigin true (by decide)

/-- C17 at the failing input: on the 2x2 grid with a 64x64 viewport and the
camera at `(0,0)`, the window is clamped to `[0, width] x [0, height]` and the
loops run up to and including `x = 2`, `y = 2`; the background pass issues 7
draw calls, 5 of them at the positions of the cells `(0,2)`, `(1,2)`, `(2,0)`,
`(2,1)`, `(2,2)`, which are outside the grid (drawn with the sprite of tile
id 0). -/
theorem render_draws_outside_grid :
    (render layered2x2 screen64 cameraOrigin false).map
        (fun g => g.drawn.map (fun c => (c.x, c.y))) =
      Except.ok [(0, 0), (0, 64), (32, 32), (32, 64), (64, 0), (64, 32), (64, 64)] ∧
      (64 : Int) = 2 * layered2x2.tileSize ∧
      tileInRange layered2x2 0 2 = false ∧ tileInRange layered2x2 1 2 = false ∧
      tileInRange layered2x2 2 0 = false ∧ tileInRange layered2x2 2 1 = false ∧
      tileInRange layered2x2 2 2 = false := by
  decide

theorem drawsCell_positions (t : Tilemap) (camera : Camera) (cells : List (Int × Int))
    (calls : List DrawCall) (h : List.Forall₂ (DrawsCell t camera) cells calls) :
    calls.map (fun c => (c.x, c.y)) =
      cells.map (fun p => (p.1 * t.tileSize, p.2 * t.tileSize)) := by
  induction h with
  | nil => rfl
  | cons hd _ ih =>
    simp only [List.map_cons, ih, hd.1, hd.2.1]

theorem cellPosition_injective (ts : Int) (hts : ts ≠ 0) :
    Function.Injective (fun p : Int × Int => (p.1 * ts, p.2 * ts)) := by
  rintro ⟨a, b⟩ ⟨c, d⟩ h
  simp only [Prod.mk.injEq] at h
  rw [mul_right_cancel₀ hts h.1, mul_right_cancel₀ hts h.2]

theorem count_position_of_nodup (ts : Int) (hts : ts ≠ 0) (cells : List (Int × Int))
    (P : Int × Int → Bool) (q : Int × Int) (hn : cells.Nodup) (hq : q ∈ cells) :
    ((cells.filter P).map (fun p => (p.1 * ts, p.2 * ts))).count (q.1 * ts, q.2 * ts) =
      if P q = true then 1 else 0 := by
  have hinj := cellPosition_injective ts hts
  have hzero : ∀ (l : List (Int × Int)) (r : Int × Int), r ∉ l →
      ((l.filter P).map (fun p => (p.1 * ts, p.2 * ts))).count (r.1 * ts, r.2 * ts) = 0 := by
    intro l r hr
    apply List.count_eq_zero_of_not_mem
    intro hmem
    obtain ⟨a, ha, heq⟩ := List.mem_map.1 hmem
    have har : a = r := hinj heq
    rw [har] at ha
    exact hr (List.mem_filter.1 ha).1
  induction cells with
  | nil => simp at hq
  | cons c cs ih =>
    obtain ⟨hc, hn1⟩ := List.nodup_cons.1 hn
    by_cases hqc : q = c
    · subst hqc
      by_cases hP : P q = true
      · simp [List.filter_cons, hP, List.count_cons, hzero cs q hc]
      · simp [List.filter_cons, hP, hzero cs q hc]
    · have hq1 : q ∈ cs := by
        rcases List.mem_cons.1 hq with h | h
        · exact absurd h hqc
        · exact h
      have hne : ((c.1 * ts, c.2 * ts) == (q.1 * ts, q.2 * ts)) = false := by
        rw [beq_eq_false_iff_ne]
        intro heq
        exact hqc (hinj heq).symm
      by_cases hPc : P c = true
      · rw [List.filter_cons_of_pos hPc, List.map_cons, List.count_cons, hne, ih hn1 hq1]
        simp
      · rw [List.filter_cons_of_neg hPc, ih hn1 hq1]

/-- Outside the range of `int`, `atoi` gives the `int` with the low 32 bits of
the number read, and for numbers outside the range of `long` the conversion of
the end of that range. -/
theorem atoi_outside_int :
    atoi "2147483647".toList = 2147483647 ∧
      atoi "2147483648".toList = -2147483648 ∧
      atoi "-2147483649".toList = 2147483647 ∧
      atoi "99999999999999999999".toList = -1 := by
  decide

/-- Why the amended C19 asks for a record of tile id 0: the window reaches
positions outside the grid, which are looked up as tile id 0.  On the tilemap
built from an empty metadata file, whose grid has no cell at all, the window is
the single position `(0,0)` and both passes read `foregroundData[0]` outside the
table. -/
theorem render_without_record_zero :
    construct 32 ⟨0, 0, 32, 32⟩ (some []) = Except.ok noLayoutNoMetadata ∧
      (∀ c ∈ noLayoutNoMetadata.tileData, HasRecord noLayoutNoMetadata c) ∧
      render noLayoutNoMetadata screen64 cameraOrigin false = Except.error Fault.outOfBounds ∧
      render noLayoutNoMetadata screen64 cameraOrigin true = Except.error Fault.outOfBounds := by
  decide

end Bleak
